import Mathlib

/-!
Shallow embedding of the BAGS69 presale platform core logic:
`lib/presale-db.ts` (embedded in the repository README), `lib/constants.ts`,
`lib/launch-presale.ts`, `app/api/presale/[id]/join/route.ts` and
`app/api/presale/[id]/refund/route.ts`.

Modelling conventions:
* SOL amounts (JS `number`) are exact rationals `ℚ`; `Math.floor` is `Int.floor`.
* Counts (JS `number` used as integers) are `Int`, so JS decrements below zero
  are represented faithfully instead of truncating at zero.
* Timestamps (ISO strings compared through `new Date`) are `Int` milliseconds.
* The persistent store is an explicit `PresaleDb` value threaded through the
  operations; in-place mutation of a record found with `Array.prototype.find`
  becomes `updateFirst`, which rewrites the first matching list element.
* External collaborators (Solana RPC, the BAGS API, the escrow keypair) are
  abstracted as explicit outcome parameters (`LaunchEnv`, `RefundEnv`,
  a `verifyOk` flag); they never touch the store themselves.
-/

/-- Presale status enum (`PresaleStatus` in lib/presale-db.ts). -/
inductive PresaleStatus where
  | active
  | launched
  | failed
  | refunding
deriving DecidableEq

/-- The `Presale` record of lib/presale-db.ts (fields the core logic reads or
writes; display-only metadata strings are carried verbatim). -/
structure Presale where
  id : String
  creator_wallet : String
  token_name : String
  token_symbol : String
  min_sol_per_wallet : ℚ
  max_sol_per_wallet : ℚ
  target_participants : Int
  duration_minutes : Int
  launch_fee_paid : Bool
  status : PresaleStatus
  created_at : Int
  expires_at : Int
  launched_at : Option Int := none
  token_mint : Option String := none
  launch_signature : Option String := none
  meteora_config_key : Option String := none
  total_sol : ℚ
  participant_count : Int
deriving DecidableEq

/-- The `PresaleParticipant` record of lib/presale-db.ts. -/
structure Participant where
  presale_id : String
  wallet : String
  amount_sol : ℚ
  fee_share_bps : Int
  tx_signature : String
  confirmed : Bool
  refunded : Bool
  withdrawn : Bool
  refund_signature : Option String := none
  withdraw_signature : Option String := none
  withdraw_tax_paid : Option ℚ := none
deriving DecidableEq

/-- The JSON database held in `presaleDbCache` in lib/presale-db.ts. -/
structure PresaleDb where
  presales : List Presale
  participants : List Participant
  lastPresaleNum : Int
deriving DecidableEq

/-- Rewrite the first element satisfying `p` (JS pattern: mutate the record
returned by `Array.prototype.find`). -/
def updateFirst (p : α → Bool) (f : α → α) : List α → List α
  | [] => []
  | x :: xs => if p x then f x :: xs else x :: updateFirst p f xs

/-! ### Constants (lib/constants.ts, `PRESALE_CONFIG`) -/

def MIN_PARTICIPANTS : Int := 1
def MAX_PARTICIPANTS : Int := 68
def CREATOR_ALLOCATION_BPS : Int := 500
def PARTICIPANT_ALLOCATION_BPS : Int := 9500
def WITHDRAWAL_TAX_BPS : Int := 500
def DURATION_OPTIONS : List Int := [10, 20, 30]
def DEFAULT_MIN_SOL : ℚ := 1 / 100
def DEFAULT_MAX_SOL : ℚ := 1 / 10
def DEFAULT_PARTICIPANTS : Int := 68
def LAMPORTS_PER_SOL : Int := 1000000000

/-- Source `isValidDuration` from lib/constants.ts. -/
def isValidDuration (minutes : Int) : Bool :=
  DURATION_OPTIONS.contains minutes

/-- Source `calculateWithdrawalTax` from lib/constants.ts: returns
`(taxAmount, returnAmount)`. -/
def calculateWithdrawalTax (amountSol : ℚ) : ℚ × ℚ :=
  let taxAmount := amountSol * ((WITHDRAWAL_TAX_BPS : ℚ) / 10000)
  (taxAmount, amountSol - taxAmount)

/-! ### Store predicates -/

/-- Predicate `p.id === id` as used by every presale lookup. -/
def presaleIdIs (id : String) (q : Presale) : Bool :=
  decide (q.id = id)

/-- The live-participant filter used by `getPresaleParticipants` and
`calculateFeeShares`: confirmed and neither refunded nor withdrawn. -/
def isActivePart (pid : String) (p : Participant) : Bool :=
  decide (p.presale_id = pid) && p.confirmed && !p.refunded && !p.withdrawn

/-- The unresolved-record filter used by `getParticipantByWallet`,
`addParticipant`, `markParticipantRefunded` and `markParticipantWithdrawn`:
not refunded and not withdrawn (confirmation not required). -/
def unresolvedForWallet (pid w : String) (p : Participant) : Bool :=
  decide (p.presale_id = pid) && decide (p.wallet = w) && !p.refunded && !p.withdrawn

/-- The filter used by `confirmParticipant`: unresolved and not yet confirmed. -/
def unconfirmedForWallet (pid w : String) (p : Participant) : Bool :=
  decide (p.presale_id = pid) && decide (p.wallet = w) &&
    !p.confirmed && !p.refunded && !p.withdrawn

/-! ### Presale CRUD (lib/presale-db.ts) -/

/-- Source `getPresaleById`. -/
def getPresaleById (db : PresaleDb) (id : String) : Option Presale :=
  db.presales.find? (presaleIdIs id)

/-- Source `getPresaleParticipants`. -/
def getPresaleParticipants (db : PresaleDb) (pid : String) : List Participant :=
  db.participants.filter (isActivePart pid)

/-- Source `getParticipantByWallet`. -/
def getParticipantByWallet (db : PresaleDb) (pid w : String) : Option Participant :=
  db.participants.find? (unresolvedForWallet pid w)

/-- Input record of `createPresale`; `Option` fields model optional JS
arguments falling back to defaults. -/
structure CreatePresaleData where
  creator_wallet : String
  token_name : String
  token_symbol : String
  min_sol_per_wallet : Option ℚ := none
  max_sol_per_wallet : Option ℚ := none
  duration_minutes : Option Int := none
  target_participants : Option Int := none
  launch_fee_signature : String

/-- Source `createPresale`. The generated id (`generatePresaleId`, random) is passed
in as `newId`; `now` is the creation timestamp. Validation failures (`throw`
in the source) are `none`, and they occur before any store mutation.
The display-only upper-casing of the token symbol is not modelled. -/
def createPresale (db : PresaleDb) (d : CreatePresaleData) (newId : String)
    (now : Int) : Option (Presale × PresaleDb) :=
  if !isValidDuration (d.duration_minutes.getD 30) then none
  else if d.target_participants.getD DEFAULT_PARTICIPANTS < MIN_PARTICIPANTS
      ∨ d.target_participants.getD DEFAULT_PARTICIPANTS > MAX_PARTICIPANTS then none
  else if d.launch_fee_signature = "" then none
  else
    let pres : Presale := {
      id := newId
      creator_wallet := d.creator_wallet
      token_name := d.token_name
      token_symbol := d.token_symbol
      min_sol_per_wallet := d.min_sol_per_wallet.getD DEFAULT_MIN_SOL
      max_sol_per_wallet := d.max_sol_per_wallet.getD DEFAULT_MAX_SOL
      target_participants := d.target_participants.getD DEFAULT_PARTICIPANTS
      duration_minutes := d.duration_minutes.getD 30
      launch_fee_paid := true
      status := PresaleStatus.active
      created_at := now
      expires_at := now + d.duration_minutes.getD 30 * 60 * 1000
      total_sol := 0
      participant_count := 0 }
    some (pres, { db with
      presales := pres :: db.presales
      lastPresaleNum := db.lastPresaleNum + 1 })

/-- Optional extra fields merged by `updatePresaleStatus`
(`Object.assign(presale, additionalData)`); only these four keys are ever
passed by the source. -/
structure PresaleExtra where
  token_mint : Option String := none
  meteora_config_key : Option String := none
  launch_signature : Option String := none
  launched_at : Option Int := none

/-- Merge the provided keys of a `PresaleExtra` into a presale record. -/
def applyExtra (e : PresaleExtra) (p : Presale) : Presale :=
  { p with
    token_mint := match e.token_mint with
      | some v => some v
      | none => p.token_mint
    meteora_config_key := match e.meteora_config_key with
      | some v => some v
      | none => p.meteora_config_key
    launch_signature := match e.launch_signature with
      | some v => some v
      | none => p.launch_signature
    launched_at := match e.launched_at with
      | some v => some v
      | none => p.launched_at }

/-- Source `updatePresaleStatus`. -/
def updatePresaleStatus (db : PresaleDb) (id : String) (st : PresaleStatus)
    (e : PresaleExtra) : Option Presale × PresaleDb :=
  match db.presales.find? (presaleIdIs id) with
  | none => (none, db)
  | some pres =>
    let upd := fun q => applyExtra e { q with status := st }
    (some (upd pres),
      { db with presales := updateFirst (presaleIdIs id) upd db.presales })

/-! ### Participant CRUD (lib/presale-db.ts) -/

/-- Input record of `addParticipant`. -/
structure AddParticipantData where
  presale_id : String
  wallet : String
  amount_sol : ℚ
  tx_signature : String

/-- Source `addParticipant`: refuses when the presale is missing or an unresolved
record for the same wallet already exists; otherwise pushes a fresh
unconfirmed record. -/
def addParticipant (db : PresaleDb) (d : AddParticipantData) :
    Option (Participant × PresaleDb) :=
  match db.presales.find? (presaleIdIs d.presale_id) with
  | none => none
  | some _ =>
    match db.participants.find? (unresolvedForWallet d.presale_id d.wallet) with
    | some _ => none
    | none =>
      let part : Participant := {
        presale_id := d.presale_id
        wallet := d.wallet
        amount_sol := d.amount_sol
        fee_share_bps := 0
        tx_signature := d.tx_signature
        confirmed := false
        refunded := false
        withdrawn := false }
      some (part, { db with participants := db.participants ++ [part] })

/-- Source `confirmParticipant`: confirms the first unconfirmed unresolved record for
the wallet and adds its amount to the presale totals. Returns the updated
participant, the updated presale and the updated store. -/
def confirmParticipant (db : PresaleDb) (pid w : String) :
    Option (Participant × Presale × PresaleDb) :=
  match db.participants.find? (unconfirmedForWallet pid w) with
  | none => none
  | some part =>
    match db.presales.find? (presaleIdIs pid) with
    | none => none
    | some pres =>
      let bump := fun q : Presale =>
        { q with total_sol := q.total_sol + part.amount_sol
                 participant_count := q.participant_count + 1 }
      some ({ part with confirmed := true }, bump pres,
        { db with
          participants := updateFirst (unconfirmedForWallet pid w)
            (fun p => { p with confirmed := true }) db.participants
          presales := updateFirst (presaleIdIs pid) bump db.presales })

/-- Source `markParticipantRefunded`: flags the first unresolved record for the
wallet as refunded, recording the settlement signature, and decrements the
presale totals when the record had been confirmed and the presale exists. -/
def markParticipantRefunded (db : PresaleDb) (pid w sig : String) :
    Bool × PresaleDb :=
  match db.participants.find? (unresolvedForWallet pid w) with
  | none => (false, db)
  | some part =>
    let presFound := (db.presales.find? (presaleIdIs pid)).isSome
    let setFlag := fun p : Participant =>
      { p with refunded := true, refund_signature := some sig }
    let dec := fun q : Presale =>
      { q with total_sol := q.total_sol - part.amount_sol,
               participant_count := q.participant_count - 1 }
    let db1 :=
      { db with participants :=
          updateFirst (unresolvedForWallet pid w) setFlag db.participants }
    let db2 := if part.confirmed && presFound then
        { db1 with presales := updateFirst (presaleIdIs pid) dec db1.presales }
      else db1
    (true, db2)

/-- Source `markParticipantWithdrawn`: same shape as `markParticipantRefunded` but
sets the withdrawn flag, the withdrawal signature and the tax paid. -/
def markParticipantWithdrawn (db : PresaleDb) (pid w sig : String) (tax : ℚ) :
    Bool × PresaleDb :=
  match db.participants.find? (unresolvedForWallet pid w) with
  | none => (false, db)
  | some part =>
    let presFound := (db.presales.find? (presaleIdIs pid)).isSome
    let setFlag := fun p : Participant =>
      { p with withdrawn := true, withdraw_signature := some sig,
               withdraw_tax_paid := some tax }
    let dec := fun q : Presale =>
      { q with total_sol := q.total_sol - part.amount_sol,
               participant_count := q.participant_count - 1 }
    let db1 :=
      { db with participants :=
          updateFirst (unresolvedForWallet pid w) setFlag db.participants }
    let db2 := if part.confirmed && presFound then
        { db1 with presales := updateFirst (presaleIdIs pid) dec db1.presales }
      else db1
    (true, db2)

/-! ### Fee allocation (lib/presale-db.ts `calculateFeeShares`) -/

/-- One participant's floor share: `Math.floor((amount_sol / totalSol) *
remainingBps)` with `remainingBps = 10000 - CREATOR_ALLOCATION_BPS`. -/
def floorShare (totalSol : ℚ) (p : Participant) : Int :=
  Int.floor (p.amount_sol / totalSol * ((10000 - CREATOR_ALLOCATION_BPS : Int) : ℚ))

/-- Add `k` bps to the last entry of a fee-share list
(`feeShares[feeShares.length - 1].bps += ...`). -/
def bumpLast (k : Int) : List (String × Int) → List (String × Int)
  | [] => []
  | [(w, b)] => [(w, b + k)]
  | x :: y :: xs => x :: bumpLast k (y :: xs)

/-- Source `calculateFeeShares` from lib/presale-db.ts: returns the ordered
`(wallet, bps)` list (creator first, participants in join order) together with
the updated store. Each live participant's record gets its floor share stored
in `fee_share_bps` during the loop; the rounding shortfall is then added to
the last entry of the returned list only. -/
def calculateFeeShares (db : PresaleDb) (pid : String) :
    List (String × Int) × PresaleDb :=
  match db.presales.find? (presaleIdIs pid) with
  | none => ([], db)
  | some pres =>
    let parts := db.participants.filter (isActivePart pid)
    if parts.isEmpty then ([], db)
    else
      let totalSol := pres.total_sol
      let shares := parts.map (fun p => (p.wallet, floorShare totalSol p))
      let totalAssigned := (shares.map Prod.snd).sum + CREATOR_ALLOCATION_BPS
      let feeShares := (pres.creator_wallet, CREATOR_ALLOCATION_BPS) :: shares
      let feeShares2 := if totalAssigned < 10000 ∧ feeShares.length > 1
        then bumpLast (10000 - totalAssigned) feeShares
        else feeShares
      let db2 := { db with participants := db.participants.map (fun p =>
        if isActivePart pid p then { p with fee_share_bps := floorShare totalSol p }
        else p) }
      (feeShares2, db2)

/-! ### Expiry and stats (lib/presale-db.ts) -/

/-- The per-presale body of the `checkExpiredPresales` loop. -/
def expireOne (now : Int) (p : Presale) : Presale :=
  if p.status = PresaleStatus.active ∧ p.expires_at < now
  then { p with status := PresaleStatus.failed }
  else p

/-- Source `checkExpiredPresales`: flips every active presale whose expiry is in the
past to failed, returning the flipped records and the updated store. -/
def checkExpiredPresales (db : PresaleDb) (now : Int) :
    List Presale × PresaleDb :=
  ((db.presales.filter
      (fun p => decide (p.status = PresaleStatus.active ∧ p.expires_at < now))).map
      (expireOne now),
   { db with presales := db.presales.map (expireOne now) })

/-- Result record of `getPresaleStats`. -/
structure PresaleStats where
  total : Nat
  active : Nat
  launched : Nat
  failed : Nat
  total_sol : ℚ
deriving DecidableEq

/-- Source `getPresaleStats`: counts presales by status and sums `total_sol` over the
launched ones only. -/
def getPresaleStats (db : PresaleDb) : PresaleStats :=
  let launchedPresales :=
    db.presales.filter (fun p => decide (p.status = PresaleStatus.launched))
  { total := db.presales.length
    active := (db.presales.filter
      (fun p => decide (p.status = PresaleStatus.active))).length
    launched := launchedPresales.length
    failed := (db.presales.filter
      (fun p => decide (p.status = PresaleStatus.failed))).length
    total_sol := (launchedPresales.map (fun p => p.total_sol)).sum }

/-- Source `checkAutoLaunch`. -/
def checkAutoLaunch (db : PresaleDb) (pid : String) : Bool :=
  match getPresaleById db pid with
  | none => false
  | some p => decide (p.status = PresaleStatus.active) &&
      decide (p.participant_count ≥ p.target_participants)

/-! ### Launch orchestrator (lib/launch-presale.ts `launchPresaleToken`) -/

/-- The step names carried in a failing `LaunchResult`. -/
inductive LaunchStep where
  | metadata
  | fee_share
  | launch_tx
  | launch_send
deriving DecidableEq

/-- The `LaunchResult` record of lib/launch-presale.ts (the human-readable
`error` string is not modelled). -/
structure LaunchResult where
  success : Bool
  token_mint : Option String := none
  launch_signature : Option String := none
  meteora_config_key : Option String := none
  step : Option LaunchStep := none
deriving DecidableEq

/-- Outcomes of the external collaborators consumed by one launch attempt:
environment configuration, the BAGS metadata and fee-share-config calls
(first attempt with partner fields, retry without), and the launch
transaction creation and sign-and-send steps. -/
structure LaunchEnv where
  apiKeyConfigured : Bool
  launcherKeyConfigured : Bool
  /-- create-token-info outcome: `(tokenMint, tokenMetadata)` on success. -/
  metadataResult : Option (String × String)
  /-- fee-share config attempt including partner attribution: the
  `meteoraConfigKey` on success. -/
  configWithPartner : Option String
  /-- fee-share config retry without the partner fields. -/
  configBasic : Option String
  /-- whether create-launch-transaction returned a usable payload. -/
  launchTxCreate : Bool
  /-- sign-and-send outcome for the launch transaction: the confirmation
  signature on success. -/
  launchSendResult : Option String

/-- Source `launchPresaleToken`: the multi-step launch sequence. Signing the
fee-share config transactions only logs a warning on total failure and never
mutates the store or changes the result, so it is not modelled. -/
def launchPresaleToken (db : PresaleDb) (pid : String) (force : Bool)
    (env : LaunchEnv) (now : Int) : LaunchResult × PresaleDb :=
  if !env.apiKeyConfigured then ({ success := false }, db)
  else if !env.launcherKeyConfigured then ({ success := false }, db)
  else
    match getPresaleById db pid with
    | none => ({ success := false }, db)
    | some pres =>
      if pres.status = PresaleStatus.launched then
        ({ success := false, token_mint := pres.token_mint,
           launch_signature := pres.launch_signature }, db)
      else if !force && decide (pres.participant_count < pres.target_participants) then
        ({ success := false }, db)
      else if (getPresaleParticipants db pid).isEmpty then
        ({ success := false }, db)
      else if ((calculateFeeShares db pid).1.map Prod.snd).sum ≠ 10000 then
        ({ success := false }, (calculateFeeShares db pid).2)
      else
        match env.metadataResult with
        | none =>
          ({ success := false, step := some LaunchStep.metadata },
            (calculateFeeShares db pid).2)
        | some (tokenMint, _) =>
          match (match env.configWithPartner with
                 | some k => some k
                 | none => env.configBasic) with
          | none =>
            ({ success := false, step := some LaunchStep.fee_share,
               token_mint := some tokenMint }, (calculateFeeShares db pid).2)
          | some configKey =>
            if !env.launchTxCreate then
              ({ success := false, step := some LaunchStep.launch_tx,
                 token_mint := some tokenMint,
                 meteora_config_key := some configKey },
                (updatePresaleStatus (calculateFeeShares db pid).2 pid
                  PresaleStatus.active
                  { token_mint := some tokenMint,
                    meteora_config_key := some configKey }).2)
            else
              match env.launchSendResult with
              | none =>
                ({ success := false, step := some LaunchStep.launch_send,
                   token_mint := some tokenMint,
                   meteora_config_key := some configKey },
                  (updatePresaleStatus (calculateFeeShares db pid).2 pid
                    PresaleStatus.active
                    { token_mint := some tokenMint,
                      meteora_config_key := some configKey }).2)
              | some sig =>
                ({ success := true, token_mint := some tokenMint,
                   launch_signature := some sig,
                   meteora_config_key := some configKey },
                  (updatePresaleStatus (calculateFeeShares db pid).2 pid
                    PresaleStatus.launched
                    { token_mint := some tokenMint,
                      meteora_config_key := some configKey,
                      launch_signature := some sig,
                      launched_at := some now }).2)

/-! ### Join route (app/api/presale/[id]/join/route.ts POST) -/

/-- The distinguishable HTTP responses of the join route. -/
inductive JoinResult where
  | missingFields
  | notFound
  | notActive (st : PresaleStatus)
  | expired
  | full
  | creatorCannotJoin
  | alreadyJoined
  | belowMin
  | aboveMax
  | verifyFailed
  | addFailed
  | confirmFailed
  | joined (launchTriggered : Bool) (count : Int) (totalSol : ℚ) (isFull : Bool)
deriving DecidableEq

/-- The join route `POST` handler. On-chain deposit verification cannot touch
the store; its explicit-rejection outcome is abstracted as `verifyOk = false`
(a thrown verification error is swallowed by the source and proceeds, which
is the same path as `verifyOk = true`). -/
def joinPOST (db : PresaleDb) (id w : String) (amount : ℚ) (txsig : String)
    (now : Int) (verifyOk : Bool) (env : LaunchEnv) : JoinResult × PresaleDb :=
  if w = "" ∨ amount = 0 ∨ txsig = "" then (JoinResult.missingFields, db)
  else
    match getPresaleById (checkExpiredPresales db now).2 id with
    | none => (JoinResult.notFound, (checkExpiredPresales db now).2)
    | some pres =>
      if pres.status ≠ PresaleStatus.active then
        (JoinResult.notActive pres.status, (checkExpiredPresales db now).2)
      else if pres.expires_at < now then
        (JoinResult.expired,
          (updatePresaleStatus (checkExpiredPresales db now).2 id
            PresaleStatus.failed {}).2)
      else if pres.participant_count ≥ pres.target_participants then
        (JoinResult.full, (checkExpiredPresales db now).2)
      else if w = pres.creator_wallet then
        (JoinResult.creatorCannotJoin, (checkExpiredPresales db now).2)
      else if (match getParticipantByWallet (checkExpiredPresales db now).2 id w with
               | some p => p.confirmed
               | none => false) then
        (JoinResult.alreadyJoined, (checkExpiredPresales db now).2)
      else if amount < pres.min_sol_per_wallet then
        (JoinResult.belowMin, (checkExpiredPresales db now).2)
      else if amount > pres.max_sol_per_wallet then
        (JoinResult.aboveMax, (checkExpiredPresales db now).2)
      else if !verifyOk then
        (JoinResult.verifyFailed, (checkExpiredPresales db now).2)
      else
        match addParticipant (checkExpiredPresales db now).2
          { presale_id := id, wallet := w, amount_sol := amount,
            tx_signature := txsig } with
        | none => (JoinResult.addFailed, (checkExpiredPresales db now).2)
        | some (_, db2) =>
          match confirmParticipant db2 id w with
          | none => (JoinResult.confirmFailed, db2)
          | some (_, pres2, db3) =>
            if pres2.participant_count ≥ pres2.target_participants
                ∧ pres2.status = PresaleStatus.active then
              (JoinResult.joined (launchPresaleToken db3 id false env now).1.success
                pres2.participant_count pres2.total_sol
                (pres2.participant_count ≥ pres2.target_participants),
                (launchPresaleToken db3 id false env now).2)
            else
              (JoinResult.joined false pres2.participant_count pres2.total_sol
                (pres2.participant_count ≥ pres2.target_participants), db3)

/-! ### Refund/withdraw route (app/api/presale/[id]/refund/route.ts POST) -/

/-- The distinguishable HTTP responses of the refund/withdraw route. -/
inductive RefundResult where
  | missingWallet
  | presaleNotFound
  | cannotWithdraw (st : PresaleStatus)
  | notParticipant
  | alreadyRefunded (sig : Option String)
  | alreadyWithdrawn (sig : Option String)
  | notConfirmed
  | escrowNotConfigured
  | withdrawTooSmall
  | insufficientEscrow
  | withdrawalDone (sig : String) (tax : ℚ) (returnLamports : Int)
  | refundTooSmall
  | refundDone (sig : String) (refundLamports : Int)
  | txFailed
deriving DecidableEq

/-- External outcomes consumed by one refund/withdraw call: escrow key
configuration, the escrow's on-chain balance in lamports, and the
`sendAndConfirmTransaction` outcome. -/
structure RefundEnv where
  escrowConfigured : Bool
  escrowBalanceLamports : Int
  txResult : Option String

/-- The refund route `POST` handler: withdrawal with 5% tax while the presale
is active and unexpired, full refund (minus the fixed network fee) once it is
failed, refunding, or active-but-expired. -/
def refundPOST (db : PresaleDb) (id w : String) (now : Int) (env : RefundEnv) :
    RefundResult × PresaleDb :=
  if w = "" then (RefundResult.missingWallet, db)
  else
    match getPresaleById db id with
    | none => (RefundResult.presaleNotFound, db)
    | some pres =>
      let isActivePresale :=
        pres.status = PresaleStatus.active ∧ now < pres.expires_at
      let isFailedPresale := pres.status = PresaleStatus.failed ∨
        pres.status = PresaleStatus.refunding ∨
        (pres.status = PresaleStatus.active ∧ pres.expires_at < now)
      let db1 := if pres.status = PresaleStatus.active ∧ pres.expires_at < now
        then (updatePresaleStatus db id PresaleStatus.failed {}).2
        else db
      if ¬isActivePresale ∧ ¬isFailedPresale then
        (RefundResult.cannotWithdraw pres.status, db1)
      else
        match getParticipantByWallet db1 id w with
        | none => (RefundResult.notParticipant, db1)
        | some part =>
          if part.refunded then
            (RefundResult.alreadyRefunded part.refund_signature, db1)
          else if part.withdrawn then
            (RefundResult.alreadyWithdrawn part.withdraw_signature, db1)
          else if !part.confirmed then (RefundResult.notConfirmed, db1)
          else if !env.escrowConfigured then
            (RefundResult.escrowNotConfigured, db1)
          else
            let amountSol := part.amount_sol
            let amountLamports := Int.floor (amountSol * (LAMPORTS_PER_SOL : ℚ))
            if isActivePresale then
              let tc := calculateWithdrawalTax amountSol
              let returnLamports :=
                Int.floor (tc.2 * (LAMPORTS_PER_SOL : ℚ)) - 10000
              if returnLamports ≤ 0 then (RefundResult.withdrawTooSmall, db1)
              else if env.escrowBalanceLamports < amountLamports + 10000 then
                (RefundResult.insufficientEscrow, db1)
              else
                match env.txResult with
                | none => (RefundResult.txFailed, db1)
                | some sig =>
                  let m := markParticipantWithdrawn db1 id w sig tc.1
                  (RefundResult.withdrawalDone sig tc.1 returnLamports, m.2)
            else
              let refundLamports := amountLamports - 5000
              if refundLamports ≤ 0 then (RefundResult.refundTooSmall, db1)
              else if env.escrowBalanceLamports < refundLamports + 5000 then
                (RefundResult.insufficientEscrow, db1)
              else
                match env.txResult with
                | none => (RefundResult.txFailed, db1)
                | some sig =>
                  let m := markParticipantRefunded db1 id w sig
                  -- The source checks `presale.status === 'failed'` on the
                  -- live record, which the earlier in-route expiry update has
                  -- already flipped to failed when the presale was active and
                  -- past expiry; so the flip to refunding fires in that case
                  -- too.
                  let db3 := if pres.status = PresaleStatus.failed
                      ∨ (pres.status = PresaleStatus.active ∧ pres.expires_at < now)
                    then (updatePresaleStatus m.2 id PresaleStatus.refunding {}).2
                    else m.2
                  (RefundResult.refundDone sig refundLamports, db3)

/-! ### Concrete sample stores used by witnesses and counterexamples -/

/-- Shorthand for building presale records in concrete stores. -/
def mkPresale (id creator : String) (target : Int) (st : PresaleStatus)
    (total : ℚ) (count : Int) (expires : Int) : Presale :=
  { id := id, creator_wallet := creator, token_name := "T", token_symbol := "T",
    min_sol_per_wallet := 1 / 100, max_sol_per_wallet := 10,
    target_participants := target, duration_minutes := 30,
    launch_fee_paid := true, status := st, created_at := 0,
    expires_at := expires, total_sol := total, participant_count := count }

/-- Shorthand for building participant records in concrete stores. -/
def mkPart (pid w : String) (amount : ℚ) (conf refd wd : Bool) : Participant :=
  { presale_id := pid, wallet := w, amount_sol := amount, fee_share_bps := 0,
    tx_signature := "TX", confirmed := conf, refunded := refd, withdrawn := wd }

/-- Store with one full active presale whose total (3 SOL) splits 1/3 vs 2/3,
producing a 1 bps floor-rounding shortfall. -/
def dbRemainder : PresaleDb :=
  { presales := [mkPresale "P1" "CR" 2 PresaleStatus.active 3 2 1000]
    participants := [mkPart "P1" "A" 1 true false false,
                     mkPart "P1" "B" 2 true false false]
    lastPresaleNum := 1 }

/-! ### Helper lemmas about `updateFirst`, `bumpLast` and filters -/

/-- A successful `find?` splits the list around the found element, and
`updateFirst` rewrites exactly that element. -/
theorem find?_decomp (p : α → Bool) (l : List α) (x : α)
    (h : l.find? p = some x) :
    ∃ l₁ l₂, l = l₁ ++ x :: l₂ ∧ (∀ y ∈ l₁, p y = false) ∧
      ∀ f, updateFirst p f l = l₁ ++ f x :: l₂ := by
  induction l with
  | nil => simp at h
  | cons a l ih =>
    cases hpa : p a with
    | true =>
      rw [List.find?_cons_of_pos _ hpa] at h
      obtain rfl : a = x := by injection h
      exact ⟨[], l, rfl, by simp, fun f => by simp [updateFirst, hpa]⟩
    | false =>
      rw [List.find?_cons_of_neg _ (by simp [hpa])] at h
      obtain ⟨l₁, l₂, hl, hl₁, hu⟩ := ih h
      refine ⟨a :: l₁, l₂, by simp [hl], ?_, fun f => ?_⟩
      · intro y hy
        rcases List.mem_cons.mp hy with rfl | hy
        · exact hpa
        · exact hl₁ y hy
      · simp [updateFirst, hpa, hu f]

/-- Lemma: `updateFirst` is the identity when nothing matches. -/
theorem updateFirst_of_find?_none (p : α → Bool) (f : α → α) (l : List α)
    (h : l.find? p = none) : updateFirst p f l = l := by
  induction l with
  | nil => rfl
  | cons a l ih =>
    rw [List.find?_cons] at h
    cases hpa : p a with
    | true => simp [hpa] at h
    | false =>
      simp only [hpa] at h
      simp [updateFirst, hpa, ih h]

/-- Lemma: `updateFirst` leaves any projection untouched by the rewrite unchanged. -/
theorem updateFirst_map_eq (p : α → Bool) (f : α → α) (g : α → β)
    (hg : ∀ x, g (f x) = g x) (l : List α) :
    (updateFirst p f l).map g = l.map g := by
  induction l with
  | nil => rfl
  | cons a l ih =>
    by_cases hpa : p a = true
    · simp [updateFirst, hpa, hg a]
    · simp only [Bool.not_eq_true] at hpa
      simp [updateFirst, hpa, ih]

/-- Lemma: `find?` skips a prefix in which nothing matches. -/
theorem find?_append_of_none (p : α → Bool) (l₂ : List α) :
    ∀ l₁ : List α, (∀ y ∈ l₁, p y = false) →
      (l₁ ++ l₂).find? p = l₂.find? p
  | [], _ => rfl
  | a :: l₁, h => by
    have ha : p a = false := h a (by simp)
    rw [List.cons_append, List.find?_cons_of_neg _ (by simp [ha])]
    exact find?_append_of_none p l₂ l₁ (fun y hy => h y (List.mem_cons_of_mem _ hy))

/-- After a successful `find?`, looking the element up again after the
rewrite returns the rewritten element, provided it still matches. -/
theorem find?_updateFirst (p : α → Bool) (f : α → α) (l : List α) (x : α)
    (h : l.find? p = some x) (hf : p (f x) = true) :
    (updateFirst p f l).find? p = some (f x) := by
  obtain ⟨l₁, l₂, _, hl₁, hu⟩ := find?_decomp p l x h
  rw [hu f, find?_append_of_none p _ l₁ hl₁, List.find?_cons_of_pos _ hf]

/-- Lemma: `bumpLast 0` changes nothing. -/
theorem bumpLast_zero : ∀ l : List (String × Int), bumpLast 0 l = l
  | [] => rfl
  | [(w, b)] => by simp [bumpLast]
  | x :: y :: xs => by
    simpa [bumpLast] using bumpLast_zero (y :: xs)

/-- Lemma: `bumpLast` on a cons with a nonempty tail passes the head through. -/
theorem bumpLast_cons (k : Int) (x : String × Int) (l : List (String × Int))
    (h : l ≠ []) : bumpLast k (x :: l) = x :: bumpLast k l := by
  cases l with
  | nil => exact absurd rfl h
  | cons y ys => rfl

/-- Lemma: `bumpLast` adds exactly `k` to the sum of the bps column. -/
theorem bumpLast_snd_sum (k : Int) :
    ∀ l : List (String × Int), l ≠ [] →
      ((bumpLast k l).map Prod.snd).sum = (l.map Prod.snd).sum + k
  | [], h => absurd rfl h
  | [(w, b)], _ => by simp [bumpLast]
  | x :: y :: xs, _ => by
    have h := bumpLast_snd_sum k (y :: xs) (by simp)
    simp only [bumpLast, List.map_cons, List.sum_cons, h]
    ring

/-- Lemma: `bumpLast` keeps every entry but the last. -/
theorem bumpLast_dropLast (k : Int) :
    ∀ l : List (String × Int), (bumpLast k l).dropLast = l.dropLast
  | [] => rfl
  | [(w, b)] => rfl
  | x :: y :: xs => by
    have h1 : bumpLast k (x :: y :: xs) = x :: bumpLast k (y :: xs) := rfl
    have h2 : bumpLast k (y :: xs) ≠ [] := by
      cases ys : bumpLast k (y :: xs) with
      | nil =>
        cases xs with
        | nil => simp [bumpLast] at ys
        | cons z zs => simp [bumpLast] at ys
      | cons a l => simp
    rw [h1, List.dropLast_cons_of_ne_nil h2, List.dropLast_cons_of_ne_nil (by simp),
      bumpLast_dropLast k (y :: xs)]

/-- Lemma: `bumpLast` adds `k` to the bps of the last entry. -/
theorem bumpLast_getLast? (k : Int) :
    ∀ l : List (String × Int),
      (bumpLast k l).getLast? = l.getLast?.map (fun x => (x.1, x.2 + k))
  | [] => rfl
  | [(w, b)] => rfl
  | x :: y :: xs => by
    cases xs with
    | nil =>
      cases y with
      | mk yw yb => rfl
    | cons z zs =>
      have ih := bumpLast_getLast? k (y :: z :: zs)
      have h1 : bumpLast k (x :: y :: z :: zs) = x :: bumpLast k (y :: z :: zs) := rfl
      have h2 : bumpLast k (y :: z :: zs) = y :: bumpLast k (z :: zs) := rfl
      rw [h1, h2, List.getLast?_cons_cons, ← h2, ih]
      simp [List.getLast?_cons_cons]

/-! ### Fee-share arithmetic lemmas -/

/-- The participant pool in bps, as a rational. -/
theorem remainingBps_cast : (((10000 - CREATOR_ALLOCATION_BPS : Int)) : ℚ) = 9500 := by
  norm_num [CREATOR_ALLOCATION_BPS]

/-- The sum of the floor shares is bounded by the sum of the exact shares. -/
theorem sum_floorShare_le (T : ℚ) (l : List Participant) :
    (((l.map (floorShare T)).sum : Int) : ℚ)
      ≤ (l.map (fun p => p.amount_sol / T * 9500)).sum := by
  induction l with
  | nil => simp
  | cons a l ih =>
    simp only [List.map_cons, List.sum_cons, Int.cast_add]
    have h1 : ((floorShare T a : Int) : ℚ) ≤ a.amount_sol / T * 9500 := by
      unfold floorShare
      have heq : a.amount_sol / T * (((10000 - CREATOR_ALLOCATION_BPS : Int)) : ℚ)
          = a.amount_sol / T * 9500 := by
        norm_num [CREATOR_ALLOCATION_BPS]
      rw [heq]
      exact Int.floor_le _
    exact add_le_add h1 ih

/-- Exact shares sum to the scaled total. -/
theorem sum_exactShare (T c : ℚ) (l : List Participant) :
    (l.map (fun p => p.amount_sol / T * c)).sum
      = ((l.map (fun p => p.amount_sol)).sum) / T * c := by
  induction l with
  | nil => simp
  | cons a l ih =>
    simp only [List.map_cons, List.sum_cons, ih]
    ring

/-- When the stored total equals the participants' sum and is positive, the
floor shares sum to at most the participant pool of 9500 bps. -/
theorem sum_floorShare_le_9500 (T : ℚ) (hT : 0 < T) (l : List Participant)
    (hsum : (l.map (fun p => p.amount_sol)).sum = T) :
    (l.map (floorShare T)).sum ≤ 9500 := by
  have h := sum_floorShare_le T l
  rw [sum_exactShare T 9500 l, hsum, div_self (ne_of_gt hT), one_mul] at h
  exact_mod_cast h

/-! ### The ledger invariant (spec section 3) -/

/-- Ledger invariant: every presale's running totals agree with its set of
confirmed, unresolved participants. -/
def dbInvariant (db : PresaleDb) : Prop :=
  ∀ pr ∈ db.presales,
    pr.total_sol
        = ((db.participants.filter (isActivePart pr.id)).map
            (fun p => p.amount_sol)).sum
    ∧ pr.participant_count
        = ((db.participants.filter (isActivePart pr.id)).length : Int)

/-- Well-formedness: presale ids are pairwise distinct (they are generated by
`generatePresaleId` from a strictly increasing counter plus random suffix). -/
def idsNodup (db : PresaleDb) : Prop :=
  (db.presales.map (fun p => p.id)).Nodup

/-- Splitting a filter around a distinguished cell. -/
theorem filter_middle (q : Participant → Bool) (L1 L2 : List Participant)
    (x : Participant) :
    (L1 ++ x :: L2).filter q
      = L1.filter q ++ ((if q x then [x] else []) ++ L2.filter q) := by
  rw [List.filter_append, List.filter_cons]
  cases hq : q x <;> simp

/-- A participant belonging to another presale is never in a filter set. -/
theorem isActivePart_of_ne (qid : String) (x : Participant)
    (h : x.presale_id ≠ qid) : isActivePart qid x = false := by
  simp [isActivePart, h]

/-- Rewriting one participant record without changing its amount or its
activity status for any stored presale preserves the ledger invariant. -/
theorem dbInvariant_part_update (db : PresaleDb) (pPred : Participant → Bool)
    (f : Participant → Participant) (p0 : Participant)
    (hfind : db.participants.find? pPred = some p0)
    (hamt : (f p0).amount_sol = p0.amount_sol)
    (hact : ∀ q ∈ db.presales, isActivePart q.id (f p0) = isActivePart q.id p0)
    (hinv : dbInvariant db) :
    dbInvariant { db with participants := updateFirst pPred f db.participants } := by
  obtain ⟨L1, L2, hL, _, huL⟩ := find?_decomp pPred db.participants p0 hfind
  intro pr hpr
  have hold := hinv pr hpr
  rw [hL, filter_middle] at hold
  have hactpr := hact pr hpr
  show pr.total_sol = _ ∧ pr.participant_count = _
  rw [show ({ db with participants := updateFirst pPred f db.participants } :
      PresaleDb).participants = updateFirst pPred f db.participants from rfl,
    huL f, filter_middle, hactpr]
  cases hA : isActivePart pr.id p0 with
  | false => simpa [hA] using hold
  | true =>
    constructor
    · have h1 := hold.1
      simp only [hA, if_true, List.map_append, List.sum_append, List.map_cons,
        List.sum_cons] at h1 ⊢
      simpa [hamt] using h1
    · have h2 := hold.2
      simp only [hA, if_true, List.length_append, List.length_cons] at h2 ⊢
      exact h2


/-- Rewriting one participant of presale `pid` while adjusting that presale's
totals by exactly the participant's change of contribution preserves the
ledger invariant (presale ids assumed distinct). -/
theorem dbInvariant_shift (db : PresaleDb) (pid : String)
    (pPred : Participant → Bool) (f : Participant → Participant)
    (g : Presale → Presale) (p0 : Participant)
    (hfind : db.participants.find? pPred = some p0)
    (hpid : p0.presale_id = pid)
    (hfpid : (f p0).presale_id = pid)
    (hamt : (f p0).amount_sol = p0.amount_sol)
    (hgid : ∀ q, (g q).id = q.id)
    (hgsol : ∀ q, (g q).total_sol = q.total_sol
        + ((if isActivePart pid (f p0) then (f p0).amount_sol else 0)
          - (if isActivePart pid p0 then p0.amount_sol else 0)))
    (hgcnt : ∀ q, (g q).participant_count = q.participant_count
        + ((if isActivePart pid (f p0) then (1 : Int) else 0)
          - (if isActivePart pid p0 then (1 : Int) else 0)))
    (hnd : idsNodup db) (hinv : dbInvariant db) :
    dbInvariant { db with
      participants := updateFirst pPred f db.participants,
      presales := updateFirst (presaleIdIs pid) g db.presales } := by
  cases hq : db.presales.find? (presaleIdIs pid) with
  | none =>
    rw [updateFirst_of_find?_none _ g _ hq]
    have hnone := List.find?_eq_none.mp hq
    exact dbInvariant_part_update db pPred f p0 hfind hamt
      (fun q hqmem => by
        have hne : q.id ≠ pid := by
          have h := hnone q hqmem
          simpa [presaleIdIs] using h
        rw [isActivePart_of_ne q.id (f p0) (by rw [hfpid]; exact hne.symm),
          isActivePart_of_ne q.id p0 (by rw [hpid]; exact hne.symm)])
      hinv
  | some q0 =>
    obtain ⟨L1, L2, hL, _, huL⟩ := find?_decomp pPred db.participants p0 hfind
    obtain ⟨P1, P2, hP, hP1, huP⟩ :=
      find?_decomp (presaleIdIs pid) db.presales q0 hq
    have hq0id : q0.id = pid := by
      have h := List.find?_some hq
      simpa [presaleIdIs] using h
    -- invariant cells transfer unchanged for presales with a different id
    have transfer : ∀ pr2, pr2 ∈ db.presales → pr2.id ≠ pid →
        pr2.total_sol
            = (((updateFirst pPred f db.participants).filter
                (isActivePart pr2.id)).map (fun p => p.amount_sol)).sum
        ∧ pr2.participant_count
            = (((updateFirst pPred f db.participants).filter
                (isActivePart pr2.id)).length : Int) := by
      intro pr2 hm hne
      have hA : isActivePart pr2.id p0 = false :=
        isActivePart_of_ne pr2.id p0 (by rw [hpid]; exact hne.symm)
      have hB : isActivePart pr2.id (f p0) = false :=
        isActivePart_of_ne pr2.id (f p0) (by rw [hfpid]; exact hne.symm)
      have hold := hinv pr2 hm
      rw [hL, filter_middle] at hold
      rw [huL f, filter_middle]
      simp only [hA, hB, Bool.false_eq_true, if_false, List.nil_append] at hold ⊢
      exact hold
    intro pr hpr
    have hpr2 : pr ∈ P1 ++ g q0 :: P2 := by
      have h : pr ∈ updateFirst (presaleIdIs pid) g db.presales := hpr
      rwa [huP g] at h
    show pr.total_sol
        = (((updateFirst pPred f db.participants).filter
            (isActivePart pr.id)).map (fun p => p.amount_sol)).sum
      ∧ pr.participant_count
        = (((updateFirst pPred f db.participants).filter
            (isActivePart pr.id)).length : Int)
    rcases List.mem_append.mp hpr2 with h1 | h12
    · refine transfer pr (by rw [hP]; exact List.mem_append_left _ h1) ?_
      have h := hP1 pr h1
      simpa [presaleIdIs] using h
    · rcases List.mem_cons.mp h12 with rfl | h2
      · -- the presale that was adjusted
        have hq0mem : q0 ∈ db.presales := by
          rw [hP]; exact List.mem_append_right _ (List.mem_cons_self _ _)
        have hold := hinv q0 hq0mem
        rw [hL, filter_middle, hq0id] at hold
        rw [huL f, filter_middle, hgid q0, hq0id]
        constructor
        · rw [hgsol q0, hold.1]
          cases hA : isActivePart pid p0 <;>
            cases hB : isActivePart pid (f p0) <;>
              simp [hA, hB] <;> ring
        · rw [hgcnt q0, hold.2]
          cases hA : isActivePart pid p0 <;>
            cases hB : isActivePart pid (f p0) <;>
              (simp [hA, hB, List.length_append]; try push_cast; try ring)
      · -- later presales: distinct ids via the Nodup hypothesis
        have hnd2 : ((P1 ++ q0 :: P2).map (fun p => p.id)).Nodup := by
          have h := hnd
          rwa [idsNodup, hP] at h
        rw [List.map_append, List.map_cons] at hnd2
        have hnd3 := hnd2.of_append_right
        have hnotin := (List.nodup_cons.mp hnd3).1
        have hne : pr.id ≠ pid := by
          intro hcontra
          apply hnotin
          have hmem : pr.id ∈ P2.map (fun p => p.id) :=
            List.mem_map_of_mem _ h2
          rwa [hcontra, ← hq0id] at hmem
        exact transfer pr
          (by rw [hP]; exact List.mem_append_right _ (List.mem_cons_of_mem _ h2))
          hne

/-- Lemma: `createPresale` preserves the ledger invariant when the generated id is
fresh (no stored participant references it). -/
theorem createPresale_preserves (db : PresaleDb) (d : CreatePresaleData)
    (newId : String) (now : Int) (pres : Presale) (db2 : PresaleDb)
    (h : createPresale db d newId now = some (pres, db2))
    (hfresh : ∀ p ∈ db.participants, p.presale_id ≠ newId)
    (hinv : dbInvariant db) : dbInvariant db2 := by
  unfold createPresale at h
  split_ifs at h with h1 h2 h3
  injection h with h1
  injection h1 with hpres hdb
  subst hdb
  subst hpres
  intro pr hpr
  rcases List.mem_cons.mp hpr with rfl | hold
  · have hempty : db.participants.filter (isActivePart newId) = [] := by
      apply List.filter_eq_nil_iff.mpr
      intro a ha
      simp [isActivePart, hfresh a ha]
    refine ⟨?_, ?_⟩ <;> simp [hempty]
  · exact hinv pr hold

/-- Lemma: `confirmParticipant` preserves the ledger invariant. -/
theorem confirmParticipant_preserves (db : PresaleDb) (pid w : String)
    (out : Participant × Presale × PresaleDb)
    (h : confirmParticipant db pid w = some out)
    (hnd : idsNodup db) (hinv : dbInvariant db) : dbInvariant out.2.2 := by
  unfold confirmParticipant at h
  cases hfp : db.participants.find? (unconfirmedForWallet pid w) with
  | none => rw [hfp] at h; exact absurd h (by simp)
  | some part =>
    rw [hfp] at h
    cases hfq : db.presales.find? (presaleIdIs pid) with
    | none => rw [hfq] at h; exact absurd h (by simp)
    | some pres =>
      rw [hfq] at h
      injection h with h1
      subst h1
      have hfacts := List.find?_some hfp
      simp only [unconfirmedForWallet, Bool.and_eq_true, decide_eq_true_eq,
        Bool.not_eq_true'] at hfacts
      obtain ⟨⟨⟨⟨hpid', hw⟩, hconf⟩, href⟩, hwd⟩ := hfacts
      exact dbInvariant_shift db pid (unconfirmedForWallet pid w)
        (fun p => { p with confirmed := true }) _ part hfp hpid'
        (by simpa using hpid') (by simp)
        (fun q => rfl)
        (fun q => by
          simp [isActivePart, hpid', hconf, href, hwd])
        (fun q => by
          simp [isActivePart, hpid', hconf, href, hwd])
        hnd hinv

/-- Lemma: `markParticipantRefunded` preserves the ledger invariant. -/
theorem markRefunded_preserves (db : PresaleDb) (pid w sig : String)
    (hnd : idsNodup db) (hinv : dbInvariant db) :
    dbInvariant (markParticipantRefunded db pid w sig).2 := by
  cases hfp : db.participants.find? (unresolvedForWallet pid w) with
  | none => simp only [markParticipantRefunded, hfp]; exact hinv
  | some part =>
    have hfacts := List.find?_some hfp
    simp only [unresolvedForWallet, Bool.and_eq_true, decide_eq_true_eq,
      Bool.not_eq_true'] at hfacts
    obtain ⟨⟨⟨hpid', hw⟩, href⟩, hwd⟩ := hfacts
    simp only [markParticipantRefunded, hfp]
    by_cases hc : part.confirmed = true
    · cases hq : db.presales.find? (presaleIdIs pid) with
      | none =>
        simp only [hq, Option.isSome_none, Bool.and_false, Bool.false_eq_true,
          if_false]
        have hnone := List.find?_eq_none.mp hq
        exact dbInvariant_part_update db _ _ part hfp rfl
          (fun q hqmem => by
            have hne : q.id ≠ pid := by
              have hx := hnone q hqmem
              simpa [presaleIdIs] using hx
            rw [isActivePart_of_ne q.id _ (by simpa [hpid'] using hne.symm),
              isActivePart_of_ne q.id part (by rw [hpid']; exact hne.symm)])
          hinv
      | some q0 =>
        simp only [hq, Option.isSome_some, Bool.and_true, hc, if_true]
        exact dbInvariant_shift db pid _ _ _ part hfp hpid' (by simp [hpid']) rfl
          (fun q => rfl)
          (fun q => by simp [isActivePart, hpid', hc, href, hwd]; ring)
          (fun q => by simp [isActivePart, hpid', hc, href, hwd]; ring)
          hnd hinv
    · have hc' : part.confirmed = false := by simpa using hc
      simp only [hc', Bool.false_and, Bool.false_eq_true, if_false]
      exact dbInvariant_part_update db _ _ part hfp rfl
        (fun q hqmem => by simp [isActivePart, hc'])
        hinv

/-- Lemma: `markParticipantWithdrawn` preserves the ledger invariant. -/
theorem markWithdrawn_preserves (db : PresaleDb) (pid w sig : String) (tax : ℚ)
    (hnd : idsNodup db) (hinv : dbInvariant db) :
    dbInvariant (markParticipantWithdrawn db pid w sig tax).2 := by
  cases hfp : db.participants.find? (unresolvedForWallet pid w) with
  | none => simp only [markParticipantWithdrawn, hfp]; exact hinv
  | some part =>
    have hfacts := List.find?_some hfp
    simp only [unresolvedForWallet, Bool.and_eq_true, decide_eq_true_eq,
      Bool.not_eq_true'] at hfacts
    obtain ⟨⟨⟨hpid', hw⟩, href⟩, hwd⟩ := hfacts
    simp only [markParticipantWithdrawn, hfp]
    by_cases hc : part.confirmed = true
    · cases hq : db.presales.find? (presaleIdIs pid) with
      | none =>
        simp only [hq, Option.isSome_none, Bool.and_false, Bool.false_eq_true,
          if_false]
        have hnone := List.find?_eq_none.mp hq
        exact dbInvariant_part_update db _ _ part hfp rfl
          (fun q hqmem => by
            have hne : q.id ≠ pid := by
              have hx := hnone q hqmem
              simpa [presaleIdIs] using hx
            rw [isActivePart_of_ne q.id _ (by simpa [hpid'] using hne.symm),
              isActivePart_of_ne q.id part (by rw [hpid']; exact hne.symm)])
          hinv
      | some q0 =>
        simp only [hq, Option.isSome_some, Bool.and_true, hc, if_true]
        exact dbInvariant_shift db pid _ _ _ part hfp hpid' (by simp [hpid']) rfl
          (fun q => rfl)
          (fun q => by simp [isActivePart, hpid', hc, href, hwd]; ring)
          (fun q => by simp [isActivePart, hpid', hc, href, hwd]; ring)
          hnd hinv
    · have hc' : part.confirmed = false := by simpa using hc
      simp only [hc', Bool.false_and, Bool.false_eq_true, if_false]
      exact dbInvariant_part_update db _ _ part hfp rfl
        (fun q hqmem => by simp [isActivePart, hc'])
        hinv

/-- C3: for every presale, `total_sol` equals the sum of `amount_sol` over its
confirmed, unresolved participants and `participant_count` equals the size of
that set: the invariant holds at creation (both totals zero, fresh id) and is
preserved by `confirmParticipant`, `markParticipantRefunded` and
`markParticipantWithdrawn` (presale ids pairwise distinct). -/
theorem lifecycle_totals_invariant :
    (∀ db d newId now pres db2,
        createPresale db d newId now = some (pres, db2) →
        (∀ p ∈ db.participants, p.presale_id ≠ newId) →
        dbInvariant db →
        (pres.total_sol = 0 ∧ pres.participant_count = 0) ∧ dbInvariant db2)
  ∧ (∀ db pid w out, confirmParticipant db pid w = some out →
        idsNodup db → dbInvariant db → dbInvariant out.2.2)
  ∧ (∀ db pid w sig, idsNodup db → dbInvariant db →
        dbInvariant (markParticipantRefunded db pid w sig).2)
  ∧ (∀ db pid w sig tax, idsNodup db → dbInvariant db →
        dbInvariant (markParticipantWithdrawn db pid w sig tax).2) := by
  refine ⟨?_, ?_, ?_, ?_⟩
  · intro db d newId now pres db2 h hfresh hinv
    refine ⟨?_, createPresale_preserves db d newId now pres db2 h hfresh hinv⟩
    unfold createPresale at h
    split_ifs at h
    injection h with h1
    injection h1 with hpres hdb
    subst hpres
    exact ⟨rfl, rfl⟩
  · intro db pid w out h hnd hinv
    exact confirmParticipant_preserves db pid w out h hnd hinv
  · intro db pid w sig hnd hinv
    exact markRefunded_preserves db pid w sig hnd hinv
  · intro db pid w sig tax hnd hinv
    exact markWithdrawn_preserves db pid w sig tax hnd hinv

/-- The sample store satisfies the ledger invariant. -/
theorem dbRemainder_invariant : dbInvariant dbRemainder := by
  intro pr hpr
  have hpr2 : pr = mkPresale "P1" "CR" 2 PresaleStatus.active 3 2 1000 := by
    simpa [dbRemainder] using hpr
  subst hpr2
  constructor <;>
    norm_num [dbRemainder, mkPresale, mkPart, isActivePart, List.filter]

/-- Witness for C3: the invariant survives a concrete refund mark on the
sample store. -/
theorem lifecycle_totals_invariant_witness :
    dbInvariant (markParticipantRefunded dbRemainder "P1" "A" "SIG").2 :=
  lifecycle_totals_invariant.2.2.1 dbRemainder "P1" "A" "SIG"
    (by simp [idsNodup, dbRemainder, mkPresale])
    dbRemainder_invariant

/-- Core shape of `calculateFeeShares`: creator first with the configured
500 bps, participant floor shares in join order, shortfall on the last entry,
exact 10000 bps total. -/
theorem calcFeeShares_core (db : PresaleDb) (pid : String) (pres : Presale)
    (h1 : getPresaleById db pid = some pres)
    (h2 : db.participants.filter (isActivePart pid) ≠ [])
    (h3 : pres.total_sol
      = ((db.participants.filter (isActivePart pid)).map (fun p => p.amount_sol)).sum)
    (h4 : 0 < pres.total_sol) :
    (calculateFeeShares db pid).1
      = (pres.creator_wallet, 500)
        :: bumpLast
          (9500 - ((db.participants.filter (isActivePart pid)).map
            (floorShare pres.total_sol)).sum)
          ((db.participants.filter (isActivePart pid)).map
            (fun p => (p.wallet, floorShare pres.total_sol p)))
    ∧ ((calculateFeeShares db pid).1.map Prod.snd).sum = 10000
    ∧ 0 ≤ 9500 - ((db.participants.filter (isActivePart pid)).map
        (floorShare pres.total_sol)).sum := by
  have hfind : db.presales.find? (presaleIdIs pid) = some pres := h1
  have hS : ((db.participants.filter (isActivePart pid)).map
      (floorShare pres.total_sol)).sum ≤ 9500 :=
    sum_floorShare_le_9500 pres.total_sol h4 _ h3.symm
  have hshne : (db.participants.filter (isActivePart pid)).map
      (fun p => (p.wallet, floorShare pres.total_sol p)) ≠ [] := by
    simpa using h2
  have hmaps : ((db.participants.filter (isActivePart pid)).map
      (fun p => (p.wallet, floorShare pres.total_sol p))).map Prod.snd
      = (db.participants.filter (isActivePart pid)).map (floorShare pres.total_sol) := by
    rw [List.map_map]
    rfl
  have hempty : (db.participants.filter (isActivePart pid)).isEmpty = false := by
    simpa [List.isEmpty_iff] using h2
  simp only [calculateFeeShares, hfind, hempty, Bool.false_eq_true, if_false,
    CREATOR_ALLOCATION_BPS, hmaps]
  set S := ((db.participants.filter (isActivePart pid)).map
    (floorShare pres.total_sol)).sum with hSdef
  set shares := (db.participants.filter (isActivePart pid)).map
    (fun p => (p.wallet, floorShare pres.total_sol p)) with hsharesdef
  have hlen : ((pres.creator_wallet, (500 : Int)) :: shares).length > 1 := by
    cases hcs : shares with
    | nil => exact absurd hcs hshne
    | cons a l => simp
  by_cases hcase : S + 500 < 10000
  · rw [if_pos ⟨hcase, hlen⟩, bumpLast_cons _ _ _ hshne]
    have harith : 10000 - (S + 500) = 9500 - S := by ring
    rw [harith]
    refine ⟨rfl, ?_, by omega⟩
    rw [List.map_cons, List.sum_cons, bumpLast_snd_sum _ _ hshne, hmaps]
    ring
  · have hSeq : S = 9500 := by omega
    rw [if_neg (by rw [not_and_or]; exact Or.inl hcase)]
    refine ⟨?_, ?_, by omega⟩
    · rw [show (9500 : Int) - S = 0 by omega]
      norm_num [bumpLast_zero]
    · rw [List.map_cons, List.sum_cons, hmaps, ← hSdef, hSeq]
      norm_num

/-- C1: for every presale with at least one confirmed, non-refunded,
non-withdrawn participant, whose `total_sol` is positive (and consistent with
the participants as the ledger invariant guarantees), `calculateFeeShares`
returns the creator first with exactly 500 bps, then the participants in join
order with `floor((amount_sol / total_sol) * 9500)` bps each, the
floor-rounding shortfall added to the last participant, and the bps values
sum to exactly 10000. -/
theorem calculateFeeShares_exact (db : PresaleDb) (pid : String) (pres : Presale)
    (h1 : getPresaleById db pid = some pres)
    (h2 : db.participants.filter (isActivePart pid) ≠ [])
    (h3 : pres.total_sol
      = ((db.participants.filter (isActivePart pid)).map (fun p => p.amount_sol)).sum)
    (h4 : 0 < pres.total_sol) :
    (calculateFeeShares db pid).1
      = (pres.creator_wallet, 500)
        :: bumpLast
          (9500 - ((db.participants.filter (isActivePart pid)).map
            (floorShare pres.total_sol)).sum)
          ((db.participants.filter (isActivePart pid)).map
            (fun p => (p.wallet, floorShare pres.total_sol p)))
    ∧ ((calculateFeeShares db pid).1.map Prod.snd).sum = 10000
    ∧ 0 ≤ 9500 - ((db.participants.filter (isActivePart pid)).map
        (floorShare pres.total_sol)).sum :=
  calcFeeShares_core db pid pres h1 h2 h3 h4

/-- Witness for C1: on the sample store the result sums to exactly 10000. -/
theorem calculateFeeShares_exact_witness :
    ((calculateFeeShares dbRemainder "P1").1.map Prod.snd).sum = 10000 :=
  (calculateFeeShares_exact dbRemainder "P1"
    (mkPresale "P1" "CR" 2 PresaleStatus.active 3 2 1000)
    rfl
    (by simp [dbRemainder, mkPart, mkPresale, isActivePart, List.filter])
    (by norm_num [dbRemainder, mkPart, mkPresale, isActivePart, List.filter])
    (by norm_num [mkPresale])).2.1

/-- Filtering after a conditional rewrite that preserves activity equals
rewriting the filtered list. -/
theorem filter_condMap (pid : String) (g : Participant → Participant)
    (hg : ∀ p, isActivePart pid (g p) = isActivePart pid p) :
    ∀ l : List Participant,
      (l.map (fun p => if isActivePart pid p then g p else p)).filter
        (isActivePart pid)
      = (l.filter (isActivePart pid)).map g
  | [] => rfl
  | a :: l => by
    cases ha : isActivePart pid a with
    | true =>
      simp only [List.map_cons, ha, if_true, List.filter_cons, hg a]
      simp [ha, filter_condMap pid g hg l]
    | false =>
      simp only [List.map_cons, ha, Bool.false_eq_true, if_false,
        List.filter_cons, ha]
      simp [ha, filter_condMap pid g hg l]

/-- C2 counterexample: on the sample store (total 3 SOL split 1 and 2) the
returned list assigns the last participant 6334 bps (floor 6333 plus the 1
bps shortfall) while the stored `fee_share_bps` on that participant's record
is the bare floor 6333, so the stored value differs from the returned one. -/
theorem feeShare_persist_counterexample :
    (calculateFeeShares dbRemainder "P1").1
      = [("CR", 500), ("A", 3166), ("B", 6334)]
    ∧ ((calculateFeeShares dbRemainder "P1").2.participants.map
        (fun p => (p.wallet, p.fee_share_bps))) = [("A", 3166), ("B", 6333)]
    ∧ (6333 : Int) ≠ 6334 := by
  refine ⟨?_, ?_, by decide⟩
  · norm_num [calculateFeeShares, dbRemainder, mkPresale, mkPart, presaleIdIs,
      isActivePart, floorShare, List.find?, bumpLast, CREATOR_ALLOCATION_BPS]
  · norm_num [calculateFeeShares, dbRemainder, mkPresale, mkPart, presaleIdIs,
      isActivePart, floorShare, List.find?, CREATOR_ALLOCATION_BPS]

/-- C2 (amended): after `calculateFeeShares` runs, every live participant's
record stores its bare floor share; the returned entries equal the stored
`(wallet, fee_share_bps)` pairs for every participant except the last, whose
returned bps exceed the stored floor value by the rounding shortfall. -/
theorem calculateFeeShares_persist (db : PresaleDb) (pid : String) (pres : Presale)
    (h1 : getPresaleById db pid = some pres)
    (h2 : db.participants.filter (isActivePart pid) ≠ [])
    (h3 : pres.total_sol
      = ((db.participants.filter (isActivePart pid)).map (fun p => p.amount_sol)).sum)
    (h4 : 0 < pres.total_sol) :
    ((calculateFeeShares db pid).2.participants.filter (isActivePart pid))
      = (db.participants.filter (isActivePart pid)).map
          (fun p => { p with fee_share_bps := floorShare pres.total_sol p })
    ∧ (calculateFeeShares db pid).1.tail.dropLast
      = (((calculateFeeShares db pid).2.participants.filter
          (isActivePart pid)).map (fun p => (p.wallet, p.fee_share_bps))).dropLast
    ∧ (calculateFeeShares db pid).1.tail.getLast?
      = (((calculateFeeShares db pid).2.participants.filter
          (isActivePart pid)).getLast?).map
          (fun p => (p.wallet, p.fee_share_bps
            + (9500 - ((db.participants.filter (isActivePart pid)).map
                (floorShare pres.total_sol)).sum))) := by
  have hcore := calcFeeShares_core db pid pres h1 h2 h3 h4
  have hfind : db.presales.find? (presaleIdIs pid) = some pres := h1
  have hempty : (db.participants.filter (isActivePart pid)).isEmpty = false := by
    simpa [List.isEmpty_iff] using h2
  have hg : ∀ p, isActivePart pid
      ({ p with fee_share_bps := floorShare pres.total_sol p }) = isActivePart pid p := by
    intro p
    simp [isActivePart]
  have hstore : (calculateFeeShares db pid).2.participants
      = db.participants.map (fun p =>
          if isActivePart pid p then
            { p with fee_share_bps := floorShare pres.total_sol p } else p) := by
    simp only [calculateFeeShares, hfind, hempty, Bool.false_eq_true, if_false]
  have hfilter : ((calculateFeeShares db pid).2.participants.filter (isActivePart pid))
      = (db.participants.filter (isActivePart pid)).map
          (fun p => { p with fee_share_bps := floorShare pres.total_sol p }) := by
    rw [hstore]
    exact filter_condMap pid _ hg _
  refine ⟨hfilter, ?_, ?_⟩
  · rw [hcore.1, hfilter]
    show (bumpLast _ _).dropLast = _
    rw [bumpLast_dropLast, List.map_map]
    rfl
  · rw [hcore.1, hfilter]
    show (bumpLast _ _).getLast? = _
    rw [bumpLast_getLast?, List.getLast?_map, List.getLast?_map, Option.map_map,
      Option.map_map]
    rfl

/-- Witness for the amended C2 on the sample store. -/
theorem calculateFeeShares_persist_witness :
    ((calculateFeeShares dbRemainder "P1").2.participants.filter
        (isActivePart "P1"))
      = (dbRemainder.participants.filter (isActivePart "P1")).map
          (fun p => { p with fee_share_bps := floorShare 3 p }) :=
  (calculateFeeShares_persist dbRemainder "P1"
    (mkPresale "P1" "CR" 2 PresaleStatus.active 3 2 1000)
    rfl
    (by simp [dbRemainder, mkPart, mkPresale, isActivePart, List.filter])
    (by norm_num [dbRemainder, mkPart, mkPresale, isActivePart, List.filter])
    (by norm_num [mkPresale])).1

/-! ### C9 and C10 -/

/-- C9: `calculateWithdrawalTax` returns `tax = amount * 500/10000` and
`returned = amount - tax`, and `tax + returned` equals the original amount
exactly (amounts modelled as exact rationals). -/
theorem calculateWithdrawalTax_exact (a : ℚ) :
    (calculateWithdrawalTax a).1 = a * (500 / 10000)
    ∧ (calculateWithdrawalTax a).2 = a - (calculateWithdrawalTax a).1
    ∧ (calculateWithdrawalTax a).1 + (calculateWithdrawalTax a).2 = a := by
  refine ⟨?_, rfl, ?_⟩
  · show a * ((WITHDRAWAL_TAX_BPS : ℚ) / 10000) = a * (500 / 10000)
    norm_num [WITHDRAWAL_TAX_BPS]
  · show a * ((WITHDRAWAL_TAX_BPS : ℚ) / 10000)
      + (a - a * ((WITHDRAWAL_TAX_BPS : ℚ) / 10000)) = a
    ring

/-- Partition of a sum of mapped values by a Boolean predicate. -/
theorem sum_filter_partition (f : Presale → ℚ) (p : Presale → Bool) :
    ∀ l : List Presale,
      ((l.filter p).map f).sum + ((l.filter (fun x => !p x)).map f).sum
        = (l.map f).sum
  | [] => by simp
  | a :: l => by
    have ih := sum_filter_partition f p l
    cases ha : p a <;>
      simp only [List.filter_cons, ha, Bool.not_true, Bool.not_false,
        List.map_cons, List.sum_cons] <;>
      simp [← ih] <;> ring

/-- Every presale belongs to exactly one status bucket. -/
theorem length_status_partition :
    ∀ l : List Presale,
      l.length
        = (l.filter (fun p => decide (p.status = PresaleStatus.active))).length
          + (l.filter (fun p => decide (p.status = PresaleStatus.launched))).length
          + (l.filter (fun p => decide (p.status = PresaleStatus.failed))).length
          + (l.filter (fun p => decide (p.status = PresaleStatus.refunding))).length
  | [] => by simp
  | a :: l => by
    have ih := length_status_partition l
    cases ha : a.status <;>
      simp [List.filter_cons, ha, ih] <;> omega

/-- C10: `getPresaleStats` counts presales by status, and reports as
`total_sol` the sum over launched presales only — the SOL held in presales of
any other status (active, failed, refunding) is exactly what is excluded from
the total over all presales. -/
theorem getPresaleStats_spec (db : PresaleDb) :
    (getPresaleStats db).total_sol
      = ((db.presales.filter (fun p => decide (p.status = PresaleStatus.launched))).map
          (fun p => p.total_sol)).sum
    ∧ (getPresaleStats db).total_sol
        + ((db.presales.filter
            (fun p => !decide (p.status = PresaleStatus.launched))).map
            (fun p => p.total_sol)).sum
      = (db.presales.map (fun p => p.total_sol)).sum
    ∧ (getPresaleStats db).total = db.presales.length
    ∧ (getPresaleStats db).active
      = (db.presales.filter (fun p => decide (p.status = PresaleStatus.active))).length
    ∧ (getPresaleStats db).launched
      = (db.presales.filter (fun p => decide (p.status = PresaleStatus.launched))).length
    ∧ (getPresaleStats db).failed
      = (db.presales.filter (fun p => decide (p.status = PresaleStatus.failed))).length
    ∧ (getPresaleStats db).total
      = (getPresaleStats db).active + (getPresaleStats db).launched
        + (getPresaleStats db).failed
        + (db.presales.filter
            (fun p => decide (p.status = PresaleStatus.refunding))).length := by
  refine ⟨rfl, ?_, rfl, rfl, rfl, rfl, ?_⟩
  · exact sum_filter_partition (fun p => p.total_sol)
      (fun p => decide (p.status = PresaleStatus.launched)) db.presales
  · show db.presales.length
        = (db.presales.filter (fun p => decide (p.status = PresaleStatus.active))).length
          + (db.presales.filter (fun p => decide (p.status = PresaleStatus.launched))).length
          + (db.presales.filter (fun p => decide (p.status = PresaleStatus.failed))).length
          + (db.presales.filter (fun p => decide (p.status = PresaleStatus.refunding))).length
    exact length_status_partition db.presales

/-! ### C6 and C7: launch orchestrator behaviors -/

/-- Lemma: `calculateFeeShares` never touches the presale records themselves. -/
theorem calcFeeShares_presales (db : PresaleDb) (pid : String) :
    (calculateFeeShares db pid).2.presales = db.presales := by
  unfold calculateFeeShares
  cases h : db.presales.find? (presaleIdIs pid) with
  | none => rfl
  | some pres =>
    by_cases he : (db.participants.filter (isActivePart pid)).isEmpty = true <;>
      simp [he]

/-- C6: a presale already in status launched makes `launchPresaleToken` fail
with the stored `token_mint` and `launch_signature` in the result, for any
value of the `force` flag (the already-launched check precedes and is never
bypassed by `force`), leaving the store untouched. -/
theorem launch_already_launched (db : PresaleDb) (pid : String) (env : LaunchEnv)
    (now : Int) (pres : Presale) (force : Bool)
    (hk1 : env.apiKeyConfigured = true) (hk2 : env.launcherKeyConfigured = true)
    (h1 : getPresaleById db pid = some pres)
    (h2 : pres.status = PresaleStatus.launched) :
    (launchPresaleToken db pid force env now).1
      = { success := false, token_mint := pres.token_mint,
          launch_signature := pres.launch_signature }
    ∧ (launchPresaleToken db pid force env now).2 = db := by
  have h1' : db.presales.find? (presaleIdIs pid) = some pres := h1
  constructor <;>
    simp [launchPresaleToken, getPresaleById, hk1, hk2, h1', h2]

/-- A fully-specified sample environment for launch runs. -/
def envOk : LaunchEnv :=
  { apiKeyConfigured := true, launcherKeyConfigured := true,
    metadataResult := some ("MINT", "META"), configWithPartner := some "CK",
    configBasic := none, launchTxCreate := true, launchSendResult := some "LS" }

/-- Sample store holding one already-launched presale. -/
def dbLaunched : PresaleDb :=
  { presales := [{ mkPresale "PL" "CR" 1 PresaleStatus.launched 1 1 1000 with
      token_mint := some "MINT0", launch_signature := some "SIG0" }]
    participants := [mkPart "PL" "A" 1 true false false]
    lastPresaleNum := 1 }

/-- Witness for C6 at a concrete launched presale, with `force = true`. -/
theorem launch_already_launched_witness :
    (launchPresaleToken dbLaunched "PL" true envOk 0).1
      = { success := false, token_mint := some "MINT0",
          launch_signature := some "SIG0" }
    ∧ (launchPresaleToken dbLaunched "PL" true envOk 0).2 = dbLaunched :=
  launch_already_launched dbLaunched "PL" envOk 0
    ({ mkPresale "PL" "CR" 1 PresaleStatus.launched 1 1 1000 with
      token_mint := some "MINT0", launch_signature := some "SIG0" }) true
    rfl rfl rfl rfl

/-- Environment in which both fee-share-config attempts fail. -/
def envFeeShareFail : LaunchEnv :=
  { apiKeyConfigured := true, launcherKeyConfigured := true,
    metadataResult := some ("MINT", "META"), configWithPartner := none,
    configBasic := none, launchTxCreate := true, launchSendResult := some "LS" }

/-- Environment whose metadata-registration call fails. -/
def envMetaFail : LaunchEnv :=
  { apiKeyConfigured := true, launcherKeyConfigured := true,
    metadataResult := none, configWithPartner := some "CK",
    configBasic := none, launchTxCreate := true, launchSendResult := some "LS" }

/-- Sample store: a full active presale that already carries a token mint
from an earlier partially-completed launch attempt. -/
def dbMintSet : PresaleDb :=
  { presales := [{ mkPresale "PM" "CR" 1 PresaleStatus.active 1 1 1000 with
      token_mint := some "OLDMINT" }]
    participants := [mkPart "PM" "A" 1 true false false]
    lastPresaleNum := 1 }

/-- C7 counterexample. Part one: when the fee-share-config step fails on a
full active presale, the result carries the freshly obtained token mint and
the `fee_share` step, but the presale record in the store still has no
`token_mint` — the partial identifier is not persisted. Part two: a retried
launch for a presale whose `token_mint` is already set still calls metadata
registration (a metadata-service failure fails the run at step `metadata`),
so the step is re-registered rather than skipped. -/
theorem launch_feeShareFail_counterexample :
    (launchPresaleToken dbRemainder "P1" false envFeeShareFail 0).1.step
      = some LaunchStep.fee_share
    ∧ (launchPresaleToken dbRemainder "P1" false envFeeShareFail 0).1.token_mint
      = some "MINT"
    ∧ (launchPresaleToken dbRemainder "P1" false envFeeShareFail 0).2.presales.map
        (fun p => p.token_mint) = [none]
    ∧ (getPresaleById dbMintSet "PM").map (fun p => p.token_mint)
      = some (some "OLDMINT")
    ∧ (launchPresaleToken dbMintSet "PM" false envMetaFail 0).1.step
      = some LaunchStep.metadata := by
  refine ⟨?_, ?_, ?_, ?_, ?_⟩ <;>
    (norm_num [launchPresaleToken, getPresaleById, getPresaleParticipants,
      calculateFeeShares, dbRemainder, dbMintSet, mkPresale, mkPart,
      presaleIdIs, isActivePart, floorShare, List.find?, List.filter, bumpLast,
      CREATOR_ALLOCATION_BPS, envFeeShareFail, envMetaFail];
     try decide)

/-- C7 (amended): failure policy of the launch sequence, for a presale that
passes the entry checks (not launched; full or forced; live participants
consistent with a positive total). (1) If metadata registration fails the run
fails at step `metadata` with the presale records untouched — in particular a
retried launch re-registers metadata even when `token_mint` is already set,
rather than skipping the step. (2) If both fee-share-config attempts fail,
the run fails at step `fee_share` carrying the token mint in the result only:
the presale records are untouched, so the mint is not persisted. (3) If the
config key was obtained — by either the partner attempt or the basic retry —
and creating the launch transaction fails, the presale record is updated in
place: status stays `active` and the token mint and config key are persisted.
(4) Likewise when the launch transaction is created but sending it fails:
the run fails at step `launch_send` and the same partial identifiers are
persisted with status `active`. -/
theorem launch_failure_recovery (db : PresaleDb) (pid : String) (env : LaunchEnv)
    (now : Int) (pres : Presale) (force : Bool)
    (hk1 : env.apiKeyConfigured = true) (hk2 : env.launcherKeyConfigured = true)
    (h1 : getPresaleById db pid = some pres)
    (h2 : pres.status ≠ PresaleStatus.launched)
    (hforce : force = true ∨ pres.target_participants ≤ pres.participant_count)
    (h3 : db.participants.filter (isActivePart pid) ≠ [])
    (h4 : pres.total_sol
      = ((db.participants.filter (isActivePart pid)).map (fun p => p.amount_sol)).sum)
    (h5 : 0 < pres.total_sol) :
    (env.metadataResult = none →
        (launchPresaleToken db pid force env now).1
          = { success := false, step := some LaunchStep.metadata }
        ∧ (launchPresaleToken db pid force env now).2.presales = db.presales)
    ∧ (∀ m md, env.metadataResult = some (m, md) →
        env.configWithPartner = none → env.configBasic = none →
        (launchPresaleToken db pid force env now).1
          = { success := false, step := some LaunchStep.fee_share,
              token_mint := some m }
        ∧ (launchPresaleToken db pid force env now).2.presales = db.presales)
    ∧ (∀ m md k, env.metadataResult = some (m, md) →
        (env.configWithPartner = some k
          ∨ (env.configWithPartner = none ∧ env.configBasic = some k)) →
        env.launchTxCreate = false →
        (launchPresaleToken db pid force env now).1
          = { success := false, step := some LaunchStep.launch_tx,
              token_mint := some m, meteora_config_key := some k }
        ∧ ∃ pr2, getPresaleById (launchPresaleToken db pid force env now).2 pid
              = some pr2
            ∧ pr2.status = PresaleStatus.active
            ∧ pr2.token_mint = some m
            ∧ pr2.meteora_config_key = some k)
    ∧ (∀ m md k, env.metadataResult = some (m, md) →
        (env.configWithPartner = some k
          ∨ (env.configWithPartner = none ∧ env.configBasic = some k)) →
        env.launchTxCreate = true → env.launchSendResult = none →
        (launchPresaleToken db pid force env now).1
          = { success := false, step := some LaunchStep.launch_send,
              token_mint := some m, meteora_config_key := some k }
        ∧ ∃ pr2, getPresaleById (launchPresaleToken db pid force env now).2 pid
              = some pr2
            ∧ pr2.status = PresaleStatus.active
            ∧ pr2.token_mint = some m
            ∧ pr2.meteora_config_key = some k) := by
  have h1' : db.presales.find? (presaleIdIs pid) = some pres := h1
  have hsum : ((calculateFeeShares db pid).1.map Prod.snd).sum = 10000 :=
    (calcFeeShares_core db pid pres h1 h3 h4 h5).2.1
  have hfull : (!force && decide (pres.participant_count < pres.target_participants))
      = false := by
    rcases hforce with rfl | hle
    · simp
    · simp [not_lt.mpr hle]
  have hempty2 : (getPresaleParticipants db pid).isEmpty = false := by
    simpa [getPresaleParticipants, List.isEmpty_iff] using h3
  have hpres1 : (calculateFeeShares db pid).2.presales = db.presales :=
    calcFeeShares_presales db pid
  have hfind1 : (calculateFeeShares db pid).2.presales.find? (presaleIdIs pid)
      = some pres := by rw [hpres1]; exact h1'
  refine ⟨?_, ?_, ?_, ?_⟩
  · intro hmeta
    constructor <;>
      simp [launchPresaleToken, getPresaleById, hk1, hk2, h1', h2, hfull,
        hempty2, hsum, hmeta, hpres1]
  · intro m md hmeta hc1 hc2
    constructor <;>
      simp [launchPresaleToken, getPresaleById, hk1, hk2, h1', h2, hfull,
        hempty2, hsum, hmeta, hc1, hc2, hpres1]
  · intro m md k hmeta hcfg htx
    have hck : (match env.configWithPartner with
        | some k2 => some k2
        | none => env.configBasic) = some k := by
      rcases hcfg with hA | ⟨hA, hB⟩
      · simp [hA]
      · simp [hA, hB]
    have hupd : presaleIdIs pid
        (applyExtra { token_mint := some m, meteora_config_key := some k }
          { pres with status := PresaleStatus.active }) = true := by
      have hp := List.find?_some h1'
      simpa [presaleIdIs, applyExtra] using (by simpa [presaleIdIs] using hp : pres.id = pid)
    constructor
    · simp [launchPresaleToken, getPresaleById, hk1, hk2, h1', h2, hfull,
        hempty2, hsum, hmeta, hck, htx, updatePresaleStatus, hfind1]
    · refine ⟨applyExtra { token_mint := some m, meteora_config_key := some k }
        { pres with status := PresaleStatus.active }, ?_, ?_, ?_, ?_⟩
      · have hrun : (launchPresaleToken db pid force env now).2.presales
            = updateFirst (presaleIdIs pid)
              (fun q => applyExtra
                { token_mint := some m, meteora_config_key := some k }
                { q with status := PresaleStatus.active })
              db.presales := by
          simp [launchPresaleToken, getPresaleById, hk1, hk2, h1', h2, hfull,
            hempty2, hsum, hmeta, hck, htx, updatePresaleStatus, hfind1, hpres1]
        show (launchPresaleToken db pid force env now).2.presales.find? _ = _
        rw [hrun]
        exact find?_updateFirst (presaleIdIs pid)
          (fun q => applyExtra { token_mint := some m, meteora_config_key := some k }
            { q with status := PresaleStatus.active })
          db.presales pres h1' hupd
      · simp [applyExtra]
      · simp [applyExtra]
      · simp [applyExtra]
  · intro m md k hmeta hcfg htx hsend
    have hck : (match env.configWithPartner with
        | some k2 => some k2
        | none => env.configBasic) = some k := by
      rcases hcfg with hA | ⟨hA, hB⟩
      · simp [hA]
      · simp [hA, hB]
    have hupd : presaleIdIs pid
        (applyExtra { token_mint := some m, meteora_config_key := some k }
          { pres with status := PresaleStatus.active }) = true := by
      have hp := List.find?_some h1'
      simpa [presaleIdIs, applyExtra] using (by simpa [presaleIdIs] using hp : pres.id = pid)
    constructor
    · simp [launchPresaleToken, getPresaleById, hk1, hk2, h1', h2, hfull,
        hempty2, hsum, hmeta, hck, htx, hsend, updatePresaleStatus, hfind1]
    · refine ⟨applyExtra { token_mint := some m, meteora_config_key := some k }
        { pres with status := PresaleStatus.active }, ?_, ?_, ?_, ?_⟩
      · have hrun : (launchPresaleToken db pid force env now).2.presales
            = updateFirst (presaleIdIs pid)
              (fun q => applyExtra
                { token_mint := some m, meteora_config_key := some k }
                { q with status := PresaleStatus.active })
              db.presales := by
          simp [launchPresaleToken, getPresaleById, hk1, hk2, h1', h2, hfull,
            hempty2, hsum, hmeta, hck, htx, hsend, updatePresaleStatus, hfind1,
            hpres1]
        show (launchPresaleToken db pid force env now).2.presales.find? _ = _
        rw [hrun]
        exact find?_updateFirst (presaleIdIs pid)
          (fun q => applyExtra { token_mint := some m, meteora_config_key := some k }
            { q with status := PresaleStatus.active })
          db.presales pres h1' hupd
      · simp [applyExtra]
      · simp [applyExtra]
      · simp [applyExtra]

/-- Environment in which the launch-transaction creation fails. -/
def envLaunchTxFail : LaunchEnv :=
  { apiKeyConfigured := true, launcherKeyConfigured := true,
    metadataResult := some ("MINT", "META"), configWithPartner := some "CK",
    configBasic := none, launchTxCreate := false, launchSendResult := none }

/-- Environment in which the partner fee-share-config attempt fails, the basic
retry succeeds, and sending the created launch transaction fails. -/
def envSendFail : LaunchEnv :=
  { apiKeyConfigured := true, launcherKeyConfigured := true,
    metadataResult := some ("MINT", "META"), configWithPartner := none,
    configBasic := some "CK", launchTxCreate := true, launchSendResult := none }

/-- Witness for the amended C7: a concrete launch-transaction send failure —
with the config key obtained through the basic retry — leaves the sample
presale active with mint and config key persisted. -/
theorem launch_failure_recovery_witness :
    (launchPresaleToken dbRemainder "P1" false envSendFail 0).1
      = { success := false, step := some LaunchStep.launch_send,
          token_mint := some "MINT", meteora_config_key := some "CK" }
    ∧ ∃ pr2, getPresaleById
          (launchPresaleToken dbRemainder "P1" false envSendFail 0).2 "P1"
        = some pr2
      ∧ pr2.status = PresaleStatus.active
      ∧ pr2.token_mint = some "MINT"
      ∧ pr2.meteora_config_key = some "CK" :=
  (launch_failure_recovery dbRemainder "P1" envSendFail 0
    (mkPresale "P1" "CR" 2 PresaleStatus.active 3 2 1000) false
    rfl rfl rfl (by decide)
    (Or.inr (by decide))
    (by simp [dbRemainder, mkPart, mkPresale, isActivePart, List.filter])
    (by norm_num [dbRemainder, mkPart, mkPresale, isActivePart, List.filter])
    (by norm_num [mkPresale])).2.2.2 "MINT" "META" "CK" rfl
      (Or.inr ⟨rfl, rfl⟩) rfl rfl

/-! ### C8: lazy expiry and the untaxed refund path -/

/-- Lemma: `updatePresaleStatus` never touches the participant records. -/
theorem updatePresaleStatus_participants (db : PresaleDb) (id : String)
    (st : PresaleStatus) (e : PresaleExtra) :
    (updatePresaleStatus db id st e).2.participants = db.participants := by
  unfold updatePresaleStatus
  cases h : db.presales.find? (presaleIdIs id) <;> rfl

/-- C8: `checkExpiredPresales` flips exactly the active presales whose expiry
is strictly in the past to failed (participants and every other presale
unchanged), and once a presale is failed — or active but past its expiry —
the refund route settles through the untaxed full-refund branch rather than
the withdrawal-with-tax branch. -/
theorem expiry_lazy_refund :
    (∀ db now,
        (checkExpiredPresales db now).2.participants = db.participants
      ∧ (∀ p ∈ db.presales, p.status = PresaleStatus.active → p.expires_at < now →
          { p with status := PresaleStatus.failed }
            ∈ (checkExpiredPresales db now).2.presales)
      ∧ (∀ p ∈ db.presales,
          ¬(p.status = PresaleStatus.active ∧ p.expires_at < now) →
          p ∈ (checkExpiredPresales db now).2.presales)
      ∧ (∀ q ∈ (checkExpiredPresales db now).2.presales,
          q ∈ db.presales
          ∨ ∃ p ∈ db.presales, p.status = PresaleStatus.active
              ∧ p.expires_at < now
              ∧ q = { p with status := PresaleStatus.failed }))
    ∧ (∀ db id w now env pres part sig, w ≠ "" →
        getPresaleById db id = some pres →
        (pres.status = PresaleStatus.failed
          ∨ (pres.status = PresaleStatus.active ∧ pres.expires_at < now)) →
        getParticipantByWallet db id w = some part →
        part.confirmed = true →
        env.escrowConfigured = true →
        0 < Int.floor (part.amount_sol * (LAMPORTS_PER_SOL : ℚ)) - 5000 →
        Int.floor (part.amount_sol * (LAMPORTS_PER_SOL : ℚ))
            ≤ env.escrowBalanceLamports →
        env.txResult = some sig →
        (refundPOST db id w now env).1
          = RefundResult.refundDone sig
              (Int.floor (part.amount_sol * (LAMPORTS_PER_SOL : ℚ)) - 5000)) := by
  constructor
  · intro db now
    refine ⟨rfl, ?_, ?_, ?_⟩
    · intro p hp hst hexp
      have h := List.mem_map_of_mem (expireOne now) hp
      have he : expireOne now p = { p with status := PresaleStatus.failed } := by
        simp [expireOne, hst, hexp]
      show _ ∈ db.presales.map (expireOne now)
      rwa [he] at h
    · intro p hp hcond
      have h := List.mem_map_of_mem (expireOne now) hp
      have he : expireOne now p = p := by
        unfold expireOne
        exact if_neg hcond
      show _ ∈ db.presales.map (expireOne now)
      rwa [he] at h
    · intro q hq
      obtain ⟨p, hp, hqe⟩ := List.mem_map.mp hq
      unfold expireOne at hqe
      by_cases hc : p.status = PresaleStatus.active ∧ p.expires_at < now
      · exact Or.inr ⟨p, hp, hc.1, hc.2, by rw [← hqe, if_pos hc]⟩
      · exact Or.inl (by rw [← hqe, if_neg hc]; exact hp)
  · intro db id w now env pres part sig hw h1 hst h2 hconf hesc hpos hbal htx
    have hfacts := List.find?_some h2
    simp only [unresolvedForWallet, Bool.and_eq_true, decide_eq_true_eq,
      Bool.not_eq_true'] at hfacts
    obtain ⟨⟨⟨hpid', hwid⟩, href⟩, hwd⟩ := hfacts
    have hnotactive : ¬(pres.status = PresaleStatus.active ∧ now < pres.expires_at) := by
      rcases hst with hfail | ⟨hact, hexp⟩
      · rintro ⟨ha, _⟩; rw [hfail] at ha; exact PresaleStatus.noConfusion ha
      · rintro ⟨_, hlt⟩; omega
    have hfailed : pres.status = PresaleStatus.failed
        ∨ pres.status = PresaleStatus.refunding
        ∨ (pres.status = PresaleStatus.active ∧ pres.expires_at < now) := by
      rcases hst with hfail | hae
      · exact Or.inl hfail
      · exact Or.inr (Or.inr hae)
    have h1' : db.presales.find? (presaleIdIs id) = some pres := h1
    have hy := updatePresaleStatus_participants db id PresaleStatus.failed {}
    have hfind2 : (if pres.status = PresaleStatus.active ∧ pres.expires_at < now
        then (updatePresaleStatus db id PresaleStatus.failed {}).2
        else db).participants.find? (unresolvedForWallet id w) = some part := by
      split
      · rw [hy]; exact h2
      · exact h2
    have hcond : ¬(¬(pres.status = PresaleStatus.active ∧ now < pres.expires_at)
        ∧ ¬(pres.status = PresaleStatus.failed
          ∨ pres.status = PresaleStatus.refunding
          ∨ (pres.status = PresaleStatus.active ∧ pres.expires_at < now))) :=
      fun hx => hx.2 hfailed
    have hpos2 : ¬(Int.floor (part.amount_sol * (LAMPORTS_PER_SOL : ℚ))
        - 5000 ≤ 0) := by omega
    have hbal2 : ¬(env.escrowBalanceLamports
        < Int.floor (part.amount_sol * (LAMPORTS_PER_SOL : ℚ)) - 5000 + 5000) := by
      omega
    have hcond2 : ¬(¬pres.status = PresaleStatus.failed
        ∧ ¬pres.status = PresaleStatus.refunding
        ∧ (pres.status = PresaleStatus.active → now ≤ pres.expires_at)) := by
      rcases hst with hfail | ⟨hact, hexp⟩
      · rintro ⟨ha, _⟩; exact ha hfail
      · rintro ⟨_, _, himp⟩
        have hle := himp hact
        omega
    have hbal3 : ¬(env.escrowBalanceLamports
        < Int.floor (part.amount_sol * (LAMPORTS_PER_SOL : ℚ))) := by omega
    simp [refundPOST, getPresaleById, getParticipantByWallet, h1', hfind2,
      hw, hcond, href, hwd, hconf, hesc, htx, hnotactive, hpos2, hbal2,
      hcond2, hbal3]

/-- Sample store with an active presale already past its expiry. -/
def dbExpired : PresaleDb :=
  { presales := [mkPresale "PE" "CR" 2 PresaleStatus.active 1 1 10]
    participants := [mkPart "PE" "A" 1 true false false]
    lastPresaleNum := 1 }

/-- Sample refund environment: escrow configured, funded, transfer confirmed. -/
def envRefund : RefundEnv :=
  { escrowConfigured := true, escrowBalanceLamports := 2000000000,
    txResult := some "RSIG" }

/-- Witness for C8: at time 100 the expired (expiry 10) active sample presale
settles through the untaxed refund branch. -/
theorem expiry_lazy_refund_witness :
    (refundPOST dbExpired "PE" "A" 100 envRefund).1
      = RefundResult.refundDone "RSIG" 999995000 := by
  have h := expiry_lazy_refund.2 dbExpired "PE" "A" 100 envRefund
    (mkPresale "PE" "CR" 2 PresaleStatus.active 1 1 10)
    (mkPart "PE" "A" 1 true false false) "RSIG"
    (by decide) rfl (Or.inr (by decide)) rfl rfl rfl
    (by norm_num [mkPart, LAMPORTS_PER_SOL])
    (by norm_num [mkPart, LAMPORTS_PER_SOL, envRefund])
    rfl
  rw [h]
  norm_num [mkPart, LAMPORTS_PER_SOL]

/-! ### C5: second refund call is rejected without the prior signature -/

/-- Sample store with a failed presale and one confirmed participant. -/
def dbFailed : PresaleDb :=
  { presales := [mkPresale "PF" "CR" 2 PresaleStatus.failed 1 1 10]
    participants := [mkPart "PF" "A" 1 true false false]
    lastPresaleNum := 1 }

/-- C5 (code bug demonstration): the first refund call settles and decrements
the totals; the second call for the same wallet is rejected, but with
`notParticipant` ("Wallet did not participate in this presale") and no prior
settlement signature — the `alreadyRefunded`/`alreadyWithdrawn` branches that
would carry `refund_signature` are unreachable because `getParticipantByWallet`
filters out refunded and withdrawn records. Totals are decremented exactly
once across the two calls. -/
theorem refund_second_call_rejected_without_signature :
    (refundPOST dbFailed "PF" "A" 100 envRefund).1
      = RefundResult.refundDone "RSIG" 999995000
    ∧ ((refundPOST dbFailed "PF" "A" 100 envRefund).2.participants.map
        (fun p => (p.refunded, p.refund_signature))) = [(true, some "RSIG")]
    ∧ ((refundPOST dbFailed "PF" "A" 100 envRefund).2.presales.map
        (fun p => (p.status, p.total_sol, p.participant_count)))
      = [(PresaleStatus.refunding, (0 : ℚ), (0 : Int))]
    ∧ (refundPOST (refundPOST dbFailed "PF" "A" 100 envRefund).2
        "PF" "A" 100 envRefund).1 = RefundResult.notParticipant
    ∧ (refundPOST (refundPOST dbFailed "PF" "A" 100 envRefund).2
        "PF" "A" 100 envRefund).2
      = (refundPOST dbFailed "PF" "A" 100 envRefund).2 := by
  refine ⟨?_, ?_, ?_, ?_, ?_⟩ <;>
    (simp [refundPOST, getPresaleById, getParticipantByWallet,
      markParticipantRefunded, updatePresaleStatus, updateFirst, applyExtra,
      unresolvedForWallet, presaleIdIs, dbFailed, mkPresale, mkPart, envRefund,
      LAMPORTS_PER_SOL, calculateWithdrawalTax, WITHDRAWAL_TAX_BPS,
      List.find?];
     try norm_num;
     try decide)

/-! ### C4: the participant cap -/

/-- Whether a join-route response reports a successful join. -/
def isJoinSuccess : JoinResult → Bool
  | JoinResult.joined _ _ _ _ => true
  | _ => false

/-- The capacity-relevant projection of a presale. -/
def capPair (p : Presale) : Int × Int :=
  (p.participant_count, p.target_participants)

/-- Pointwise-equal functions give equal maps. -/
theorem map_eq_of_forall {f g : α → β} (h : ∀ x, f x = g x) :
    ∀ l : List α, l.map f = l.map g
  | [] => rfl
  | a :: l => by simp [h a, map_eq_of_forall h l]

/-- The cap transfers along stores with identical count/target columns. -/
theorem cap_of_capmap_eq (l l' : List Presale)
    (h : l'.map capPair = l.map capPair)
    (hcap : ∀ pr ∈ l, pr.participant_count ≤ pr.target_participants) :
    ∀ pr ∈ l', pr.participant_count ≤ pr.target_participants := by
  intro pr hpr
  have hm : capPair pr ∈ l'.map capPair := List.mem_map_of_mem _ hpr
  rw [h] at hm
  obtain ⟨q, hq, hqe⟩ := List.mem_map.mp hm
  have h1 : q.participant_count = pr.participant_count := congrArg Prod.fst hqe
  have h2 : q.target_participants = pr.target_participants := congrArg Prod.snd hqe
  rw [← h1, ← h2]
  exact hcap q hq

/-- Expiry flips statuses only: counts and targets survive. -/
theorem checkExpired_capmap (db : PresaleDb) (now : Int) :
    ((checkExpiredPresales db now).2.presales).map capPair
      = db.presales.map capPair := by
  show (db.presales.map (expireOne now)).map capPair = _
  rw [List.map_map]
  exact map_eq_of_forall
    (fun p => by unfold Function.comp capPair expireOne; split <;> rfl)
    db.presales

/-- Lemma: `updatePresaleStatus` changes status and token fields only. -/
theorem updatePresaleStatus_capmap (db : PresaleDb) (id : String)
    (st : PresaleStatus) (e : PresaleExtra) :
    ((updatePresaleStatus db id st e).2.presales).map capPair
      = db.presales.map capPair := by
  unfold updatePresaleStatus
  cases h : db.presales.find? (presaleIdIs id) with
  | none => simp only [h]
  | some pres =>
    simp only [h]
    exact updateFirst_map_eq (presaleIdIs id)
      (fun q => applyExtra e { q with status := st }) capPair
      (fun q => rfl) db.presales

/-- The launch sequence never changes any presale's count or target. -/
theorem launch_capmap (db : PresaleDb) (pid : String) (force : Bool)
    (env : LaunchEnv) (now : Int) :
    ((launchPresaleToken db pid force env now).2.presales).map capPair
      = db.presales.map capPair := by
  have hdb1 : (calculateFeeShares db pid).2.presales = db.presales :=
    calcFeeShares_presales db pid
  have hu : ∀ st e,
      ((updatePresaleStatus (calculateFeeShares db pid).2 pid st e).2.presales).map
        capPair = db.presales.map capPair := by
    intro st e
    rw [updatePresaleStatus_capmap, hdb1]
  unfold launchPresaleToken
  repeat' split
  all_goals first
    | rfl
    | (show ((calculateFeeShares db pid).2.presales).map capPair = _
       rw [hdb1])
    | exact hu _ _

/-- Lemma: `addParticipant` appends a participant record only. -/
theorem addParticipant_presales (db : PresaleDb) (d : AddParticipantData)
    (out : Participant × PresaleDb) (h : addParticipant db d = some out) :
    out.2.presales = db.presales := by
  unfold addParticipant at h
  cases h1 : db.presales.find? (presaleIdIs d.presale_id) with
  | none => rw [h1] at h; exact Option.noConfusion h
  | some pres =>
    rw [h1] at h
    cases h2 : db.participants.find? (unresolvedForWallet d.presale_id d.wallet) with
    | some q => rw [h2] at h; exact Option.noConfusion h
    | none =>
      rw [h2] at h
      injection h with h3
      rw [← h3]

/-- The store shape produced by a successful `confirmParticipant`. -/
theorem confirmParticipant_store (db : PresaleDb) (pid w : String)
    (out : Participant × Presale × PresaleDb)
    (h : confirmParticipant db pid w = some out) :
    ∃ part pres, db.participants.find? (unconfirmedForWallet pid w) = some part
      ∧ db.presales.find? (presaleIdIs pid) = some pres
      ∧ out.2.2.presales = updateFirst (presaleIdIs pid)
          (fun q => { q with total_sol := q.total_sol + part.amount_sol,
                             participant_count := q.participant_count + 1 })
          db.presales := by
  unfold confirmParticipant at h
  cases hfp : db.participants.find? (unconfirmedForWallet pid w) with
  | none => rw [hfp] at h; exact Option.noConfusion h
  | some part =>
    rw [hfp] at h
    cases hfq : db.presales.find? (presaleIdIs pid) with
    | none => rw [hfq] at h; exact Option.noConfusion h
    | some pres =>
      rw [hfq] at h
      injection h with h1
      exact ⟨part, pres, rfl, rfl, by rw [← h1]⟩

/-- Incrementing the one presale found under the cap keeps the cap. -/
theorem cap_updateFirst_bump (l : List Presale) (pid : String) (pres : Presale)
    (f : Presale → Presale)
    (hfind : l.find? (presaleIdIs pid) = some pres)
    (hft : (f pres).target_participants = pres.target_participants)
    (hfc : (f pres).participant_count = pres.participant_count + 1)
    (hlt : pres.participant_count < pres.target_participants)
    (hcap : ∀ pr ∈ l, pr.participant_count ≤ pr.target_participants) :
    ∀ pr ∈ updateFirst (presaleIdIs pid) f l,
      pr.participant_count ≤ pr.target_participants := by
  obtain ⟨l1, l2, hl, _, hu⟩ := find?_decomp (presaleIdIs pid) l pres hfind
  intro pr hpr
  rw [hu f] at hpr
  rcases List.mem_append.mp hpr with h1 | h12
  · exact hcap pr (by rw [hl]; exact List.mem_append_left _ h1)
  · rcases List.mem_cons.mp h12 with rfl | h2
    · rw [hft, hfc]
      omega
    · exact hcap pr
        (by rw [hl]; exact List.mem_append_right _ (List.mem_cons_of_mem _ h2))

set_option maxHeartbeats 2000000 in
/-- C4: the participant cap. A join request arriving when the presale's
`participant_count` has reached `target_participants` is rejected (no
success response, participant records untouched), and the join route as a
whole preserves `participant_count ≤ target_participants` for every stored
presale — the confirm step only ever runs behind the fullness guard. -/
theorem join_cap_invariant :
    (∀ db id w amount txsig now verifyOk env pres,
        getPresaleById (checkExpiredPresales db now).2 id = some pres →
        pres.target_participants ≤ pres.participant_count →
        isJoinSuccess (joinPOST db id w amount txsig now verifyOk env).1 = false
        ∧ (joinPOST db id w amount txsig now verifyOk env).2.participants
            = db.participants)
  ∧ (∀ db id w amount txsig now verifyOk env,
        (∀ pr ∈ db.presales, pr.participant_count ≤ pr.target_participants) →
        ∀ pr ∈ (joinPOST db id w amount txsig now verifyOk env).2.presales,
          pr.participant_count ≤ pr.target_participants) := by
  constructor
  · intro db id w amount txsig now verifyOk env pres h1 hfull
    unfold joinPOST
    split
    · exact ⟨rfl, rfl⟩
    · simp only [h1]
      split
      · exact ⟨rfl, rfl⟩
      · split
        · refine ⟨rfl, ?_⟩
          show (updatePresaleStatus (checkExpiredPresales db now).2 id
            PresaleStatus.failed {}).2.participants = db.participants
          rw [updatePresaleStatus_participants]
          rfl
        · exact ⟨rfl, rfl⟩
  · intro db id w amount txsig now verifyOk env hcap
    have hdb1cap : ∀ pr ∈ (checkExpiredPresales db now).2.presales,
        pr.participant_count ≤ pr.target_participants :=
      cap_of_capmap_eq _ _ (checkExpired_capmap db now) hcap
    unfold joinPOST
    by_cases hmiss : (w = "" ∨ amount = 0 ∨ txsig = "")
    · rw [if_pos hmiss]
      exact hcap
    · rw [if_neg hmiss]
      split
      · exact hdb1cap
      · rename_i pres hpres
        split
        · exact hdb1cap
        · split
          · exact cap_of_capmap_eq _ _
              (updatePresaleStatus_capmap (checkExpiredPresales db now).2 id
                PresaleStatus.failed {}) hdb1cap
          · split
            · exact hdb1cap
            · rename_i hnotfull
              split
              · exact hdb1cap
              · split
                · exact hdb1cap
                · split
                  · exact hdb1cap
                  · split
                    · exact hdb1cap
                    · split
                      · exact hdb1cap
                      · split
                        · exact hdb1cap
                        · rename_i fstv db2 hadd
                          split
                          · rename_i hconf
                            have hp2 := addParticipant_presales _ _ _ hadd
                            show ∀ pr ∈ db2.presales, _
                            rw [show db2.presales = _ from hp2]
                            exact hdb1cap
                          · rename_i a pres2 db3 hconf
                            obtain ⟨part1, pres1, hfp1, hfq1, hstore⟩ :=
                              confirmParticipant_store _ id w _ hconf
                            have hp2 := addParticipant_presales _ _ _ hadd
                            have hpres' : (checkExpiredPresales db now).2.presales.find?
                                (presaleIdIs id) = some pres := hpres
                            rw [hp2] at hfq1
                            have he : pres1 = pres := by
                              have hx := hfq1.symm.trans hpres'
                              injection hx
                            subst he
                            have hlt : pres1.participant_count
                                < pres1.target_participants := lt_of_not_ge hnotfull
                            have hdb3cap : ∀ pr ∈ db3.presales,
                                pr.participant_count ≤ pr.target_participants := by
                              show ∀ pr ∈ db3.presales, _
                              rw [show db3.presales = _ from hstore, hp2]
                              exact cap_updateFirst_bump _ id pres1 _ hpres'
                                rfl rfl hlt hdb1cap
                            split
                            · exact cap_of_capmap_eq _ _
                                (launch_capmap db3 id false env now) hdb3cap
                            · exact hdb3cap

/-- Witness for C4: a join against the full sample presale is rejected and
leaves the participant records untouched. -/
theorem join_cap_invariant_witness :
    isJoinSuccess (joinPOST dbRemainder "P1" "C" 1 "TX2" 0 true envOk).1 = false
    ∧ (joinPOST dbRemainder "P1" "C" 1 "TX2" 0 true envOk).2.participants
        = dbRemainder.participants :=
  join_cap_invariant.1 dbRemainder "P1" "C" 1 "TX2" 0 true envOk
    (mkPresale "P1" "CR" 2 PresaleStatus.active 3 2 1000) rfl (by decide)
